import Mathlib

/-!
Verification of the MailTrace data-processing core (server tree):
a shallow embedding, in Lean, of the functions under
src/server/app/{services,dao,utils} that the frozen claims refer to,
together with theorems settling each claim.

Modelling conventions:
* Python dates (datetime.date) are the structure Date below; subtraction in
  days goes through Date.toRd (days-from-civil rata die), and comparison of
  valid dates through toRd agrees with Python's lexicographic order.
* Python strings are Lean String; the string operations (strip, lower,
  split, join, replace) are structural re-implementations below, so that
  the kernel can evaluate them (str.lower is an ASCII char map, the data
  of interest being ASCII; replace is single-pass, non-overlapping).
* Dict keys that may be absent or None are Option fields.
* Third-party library calls (rapidfuzz token_set_ratio / extractOne /
  extract, hashlib.sha1) are parameters of the embedding: the scorer is a
  function ratio : String -> String -> Nat, the hash a function
  hash16 : String -> String.  Their documented behaviour used by proofs
  (extractOne returns the first choice attaining the maximal score;
  token_set_ratio of a string with itself is 100) is stated where needed.
-/

namespace MailTrace

/-- Proleptic Gregorian calendar date, mirroring Python datetime.date.
Parsers only ever construct valid dates (mkDate). -/
structure Date where
  y : Nat
  m : Nat
  d : Nat
  deriving DecidableEq, Repr

/-- Leap-year predicate of the Gregorian calendar. -/
def isLeap (y : Nat) : Bool :=
  y % 4 == 0 && (y % 100 != 0 || y % 400 == 0)

/-- Number of days in a month. -/
def daysInMonth (y m : Nat) : Nat :=
  if m == 2 then (if isLeap y then 29 else 28)
  else if m == 4 || m == 6 || m == 9 || m == 11 then 30
  else 31

/-- Rata-die day number (days-from-civil); differences agree with Python
date subtraction .days. -/
def Date.toRd (dt : Date) : Int :=
  let y : Int := if dt.m ≤ 2 then (dt.y : Int) - 1 else (dt.y : Int)
  let era : Int := y / 400
  let yoe : Int := y - era * 400
  let mp : Int := ((dt.m : Int) + 9) % 12
  let doy : Int := (153 * mp + 2) / 5 + (dt.d : Int) - 1
  let doe : Int := yoe * 365 + yoe / 4 - yoe / 100 + doy
  era * 146097 + doe - 719468

instance : LE Date := ⟨fun a b => a.toRd ≤ b.toRd⟩

instance : LT Date := ⟨fun a b => a.toRd < b.toRd⟩

instance (a b : Date) : Decidable (a ≤ b) := by
  unfold LE.le instLEDate; exact Int.decLe _ _

instance (a b : Date) : Decidable (a < b) := by
  unfold LT.lt instLTDate; exact Int.decLt _ _

/-- Python date.min (0001-01-01). -/
def dateMin : Date := ⟨1, 1, 1⟩

/-- Python date.max (9999-12-31). -/
def dateMax : Date := ⟨9999, 12, 31⟩

/-- Construct a date the way datetime.date does: None (an exception in
Python, caught by the callers below) outside the valid ranges. -/
def mkDate (y m d : Nat) : Option Date :=
  if 1 ≤ y ∧ y ≤ 9999 ∧ 1 ≤ m ∧ m ≤ 12 ∧ 1 ≤ d ∧ d ≤ daysInMonth y m then
    some ⟨y, m, d⟩
  else none

/-! The string helpers below are structural re-implementations of the
Python string operations used by the source (the core library versions
are compiled with well-founded recursion, which the kernel cannot
evaluate; these definitions make every theorem below checkable by
decide / rfl). -/

/-- Character-level map (str translations such as lower() and the
single-character replaces). -/
def mapChars (f : Char → Char) (s : String) : String :=
  (s.toList.map f).asString

/-- ASCII lower-casing, modelling str.lower() on the ASCII data at hand. -/
def pyLower (s : String) : String := mapChars Char.toLower s

/-- Python str.strip() with no argument. -/
def pyTrim (s : String) : String :=
  (((s.toList.dropWhile Char.isWhitespace).reverse.dropWhile
      Char.isWhitespace).reverse).asString

/-- Splitting a character list on a single separator character
(str.split(sep) semantics: empty pieces preserved, [""] on ""). -/
def splitCList (sep : Char) : List Char → List (List Char)
  | [] => [[]]
  | c :: cs =>
    let r := splitCList sep cs
    if c = sep then [] :: r
    else
      match r with
      | h :: t => (c :: h) :: t
      | [] => [[c]]

/-- Python str.split(sep) for a one-character separator (the only kind
the source uses). -/
def pySplitC (sep : Char) (s : String) : List String :=
  (splitCList sep s.toList).map List.asString

/-- Python sep.join(list). -/
def pyJoin (sep : String) : List String → String
  | [] => ""
  | [x] => x
  | x :: y :: xs => x ++ sep ++ pyJoin sep (y :: xs)

/-- Splitting on a whitespace predicate for str.split() with no
argument. -/
def splitWsList : List Char → List (List Char)
  | [] => [[]]
  | c :: cs =>
    let r := splitWsList cs
    if c.isWhitespace then [] :: r
    else
      match r with
      | h :: t => (c :: h) :: t
      | [] => [[c]]

/-- Python str.split() with no argument: split on whitespace runs, no
empty pieces. -/
def pyWords (s : String) : List String :=
  ((splitWsList s.toList).map List.asString).filter (fun t => t ≠ "")

/-- Whitespace squashing: re.sub(whitespace-run, one space) plus strip. -/
def squashWs (s : String) : String := pyJoin " " (pyWords s)

/-- One step of Python str.replace: non-overlapping left-to-right
replacement, driven by a fuel argument (the list length) to stay
structural. -/
def replaceFuel (pat rep : List Char) : Nat → List Char → List Char
  | 0, l => l
  | _ + 1, [] => []
  | n + 1, c :: cs =>
    if pat.isPrefixOf (c :: cs) then
      rep ++ replaceFuel pat rep n (cs.drop (pat.length - 1))
    else c :: replaceFuel pat rep n cs

/-- Python str.replace(pat, rep) for nonempty pat. -/
def pyReplace (s pat rep : String) : String :=
  if pat.toList.isEmpty then s
  else (replaceFuel pat.toList rep.toList s.toList.length s.toList).asString

/-- First n characters of a string, modelling Python slicing s[:n]. -/
def strTake (s : String) (n : Nat) : String := (s.toList.take n).asString

/-- All-digits test (nonempty). -/
def isDigits (s : String) : Bool := s ≠ "" && s.toList.all Char.isDigit

/-- Digits to number (only applied to all-digit strings). -/
def toNatD (s : String) : Option Nat :=
  if isDigits s then
    some (s.toList.foldl (fun a c => a * 10 + (c.toNat - 48)) 0)
  else none

/-- Exactly-four-digit year field of strptime (%Y). -/
def parse4Y (s : String) : Option Nat :=
  if s.length = 4 ∧ isDigits s then toNatD s else none

/-- One-or-two-digit field of strptime (%m, %d). -/
def parse12 (s : String) : Option Nat :=
  if (s.length = 1 ∨ s.length = 2) ∧ isDigits s then toNatD s else none

/-- Exactly-two-digit year field of strptime (%y). -/
def parse2 (s : String) : Option Nat :=
  if s.length = 2 ∧ isDigits s then toNatD s else none

/-- Century pivot of strptime %y: 00-68 means 2000-2068, 69-99 means
1969-1999. -/
def pivotY (y2 : Nat) : Nat := if y2 ≤ 68 then 2000 + y2 else 1900 + y2

/-- Model of datetime.fromisoformat(...).date() restricted to the
"YYYY-MM-DD" prefix with an optional time part introduced by 'T' or a
space; the time digits themselves are not validated in this model (no
claim depends on them). -/
def isoWithTime (t : String) : Option Date :=
  let cs := t.toList
  if t.length ≥ 10 then
    let ys := (cs.take 4).asString
    let ms := ((cs.drop 5).take 2).asString
    let ds := ((cs.drop 8).take 2).asString
    if cs.get? 4 = some '-' ∧ cs.get? 7 = some '-' ∧
       isDigits ys ∧ isDigits ms ∧ isDigits ds ∧
       (t.length = 10 ∨ cs.get? 10 = some 'T' ∨ cs.get? 10 = some ' ') then
      match toNatD ys, toNatD ms, toNatD ds with
      | some y, some m, some d => mkDate y m d
      | _, _, _ => none
    else none
  else none

/-- Embedding of matching.parse_date_any (and, on string inputs, of
pipeline.to_date_or_none, which has the same format list and code).
After replacing '/' by '-', only the four dash formats of DATE_FORMATS
can match ("%Y-%m-%d", "%m-%d-%Y", "%d-%m-%Y", "%d-%m-%y", tried in that
order; the three slash formats can never match the slash-free input);
the last resort is ISO-with-time on the original (stripped) string. -/
def parseDateAny (s : String) : Option Date :=
  let t := pyTrim s
  if t = "" then none
  else
    let z := mapChars (fun c => if c = '/' then '-' else c) t
    let fromParts : Option Date :=
      match pySplitC '-' z with
      | [a, b, c] =>
          (do
            let y ← parse4Y a
            let m ← parse12 b
            let d ← parse12 c
            mkDate y m d) <|>
          (do
            let m ← parse12 a
            let d ← parse12 b
            let y ← parse4Y c
            mkDate y m d) <|>
          (do
            let d ← parse12 a
            let m ← parse12 b
            let y ← parse4Y c
            mkDate y m d) <|>
          (do
            let d ← parse12 a
            let m ← parse12 b
            let y2 ← parse2 c
            mkDate (pivotY y2) m d)
      | _ => none
    fromParts <|> isoWithTime t

/-- Embedding of _parse_mm_dd_yy (identical in services/matching.py and
services/summary.py): "%m-%d-%y" when the third dash part has two
characters, else "%m-%d-%Y"; anything that is not three dash parts fails
both formats. -/
def parseMmDdYy (s : String) : Option Date :=
  let t := pyTrim s
  if t = "" then none
  else
    match pySplitC '-' t with
    | [a, b, c] =>
        if c.length = 2 then do
          let m ← parse12 a
          let d ← parse12 b
          let y2 ← parse2 c
          mkDate (pivotY y2) m d
        else do
          let m ← parse12 a
          let d ← parse12 b
          let y ← parse4Y c
          mkDate y m d
    | _ => none

/-- Two-digit zero padding of strftime. -/
def pad2 (n : Nat) : String := if n < 10 then "0" ++ toString n else toString n

/-- Four-digit zero padding for isoformat years. -/
def pad4 (n : Nat) : String :=
  if n < 10 then "000" ++ toString n
  else if n < 100 then "00" ++ toString n
  else if n < 1000 then "0" ++ toString n
  else toString n

/-- Embedding of fmt_mm_dd_yy: strftime("%m-%d-%y") or "None provided". -/
def fmtMmDdYy : Option Date → String
  | some dt => pad2 dt.m ++ "-" ++ pad2 dt.d ++ "-" ++ pad2 (dt.y % 100)
  | none => "None provided"

/-- Python date.isoformat(). -/
def Date.iso (dt : Date) : String :=
  pad4 dt.y ++ "-" ++ pad2 dt.m ++ "-" ++ pad2 dt.d

/-! ### Address normalization (services/matching.py, identical copies in
utils/normalize.py) -/

/-- The STREET_TYPES dictionary, in source order. -/
def streetTypes : List (String × String) :=
  [("street", "street"), ("st", "street"), ("st.", "street"),
   ("road", "road"), ("rd", "road"), ("rd.", "road"),
   ("avenue", "avenue"), ("ave", "avenue"), ("ave.", "avenue"),
   ("av", "avenue"), ("av.", "avenue"),
   ("boulevard", "boulevard"), ("blvd", "boulevard"), ("blvd.", "boulevard"),
   ("lane", "lane"), ("ln", "lane"), ("ln.", "lane"),
   ("drive", "drive"), ("dr", "drive"), ("dr.", "drive"),
   ("court", "court"), ("ct", "court"), ("ct.", "court"),
   ("circle", "circle"), ("cir", "circle"), ("cir.", "circle"),
   ("parkway", "parkway"), ("pkwy", "parkway"), ("pkwy.", "parkway"),
   ("highway", "highway"), ("hwy", "highway"), ("hwy.", "highway"),
   ("terrace", "terrace"), ("ter", "terrace"), ("ter.", "terrace"),
   ("place", "place"), ("pl", "place"), ("pl.", "place"),
   ("way", "way"), ("wy", "way"), ("wy.", "way"),
   ("trail", "trail"), ("trl", "trail"), ("trl.", "trail"),
   ("alley", "alley"), ("aly", "alley"), ("aly.", "alley"),
   ("common", "common"), ("cmn", "common"), ("cmn.", "common"),
   ("park", "park")]

/-- The DIRECTIONALS dictionary, in source order. -/
def directionals : List (String × String) :=
  [("n", "north"), ("n.", "north"), ("north", "north"),
   ("s", "south"), ("s.", "south"), ("south", "south"),
   ("e", "east"), ("e.", "east"), ("east", "east"),
   ("w", "west"), ("w.", "west"), ("west", "west"),
   ("ne", "northeast"), ("ne.", "northeast"),
   ("nw", "northwest"), ("nw.", "northwest"),
   ("se", "southeast"), ("se.", "southeast"),
   ("sw", "southwest"), ("sw.", "southwest")]

/-- Dictionary lookup (dict membership plus indexing). -/
def lookupTab (tab : List (String × String)) (k : String) : Option String :=
  (tab.find? (fun p => p.1 == k)).map (fun p => p.2)

/-- The values view STREET_TYPES.values() (membership is all that is used,
so duplicates are harmless). -/
def streetTypeValues : List String := streetTypes.map (fun p => p.2)

/-- The values view DIRECTIONALS.values(). -/
def directionalValues : List String := directionals.map (fun p => p.2)

/-- Python str.strip(".,"). -/
def stripPunct (s : String) : String :=
  let p := fun c => c == '.' || c == ','
  (((s.toList.dropWhile p).reverse.dropWhile p).reverse).asString

/-- Embedding of _norm_token. -/
def normToken (tok : String) : String :=
  let t := stripPunct (pyLower tok)
  match lookupTab streetTypes t with
  | some v => v
  | none =>
    match lookupTab directionals t with
    | some v => v
    | none => t

/-- Embedding of normalize_address1: '-' to space, keep word chars, '#'
and whitespace (ASCII model of the regex), lowercase, canonicalize each
token, squash whitespace. -/
def normalizeAddress1 (s : String) : String :=
  let s1 := mapChars (fun c => if c = '-' then ' ' else c) s
  let s2 := mapChars
    (fun c => if c.isAlphanum || c = '_' || c = '#' || c.isWhitespace then c else ' ') s1
  let parts := (pyWords (pyLower s2)).map normToken
  squashWs (pyJoin " " parts)

/-- Embedding of block_key: first token, plus the initial of the second
token when present, lowercased; empty string when no token. -/
def blockKey (addr1 : String) : String :=
  match pyWords (squashWs addr1) with
  | [] => ""
  | first :: rest =>
    let si := match rest with
      | [] => ""
      | t :: _ => (t.toList.take 1).asString
    pyLower (first ++ "|" ++ si)

/-- Embedding of tokens(s): the tokens of the normalized address. -/
def tokensOf (s : String) : List String := pyWords (normalizeAddress1 s)

/-- Embedding of street_type_of: the last token when it is a canonical
street type. -/
def streetTypeOf (toks : List String) : Option String :=
  match toks.getLast? with
  | none => none
  | some last => if streetTypeValues.contains last then some last else none

/-- Embedding of directional_in: the first token that is a canonical
directional. -/
def directionalIn (toks : List String) : Option String :=
  toks.find? (fun t => directionalValues.contains t)

/-- Embedding of utils.normalize.zip5: first five digits of the string. -/
def zip5fn (z : Option String) : String :=
  let s := pyTrim (z.getD "")
  if s = "" then "" else ((s.toList.filter Char.isDigit).take 5).asString

/-- Embedding of utils.normalize.build_full_address.  NOTE the parameter
order of the source (addr1, city, state, z, addr2); the pipeline call
site passes its arguments positionally in a different order, which is
reproduced faithfully at that call. -/
def buildFullAddress (addr1 city state z addr2 : Option String) : String :=
  let a1 := normalizeAddress1 (addr1.getD "")
  let parts := [a1, pyTrim (addr2.getD ""), pyTrim (city.getD ""),
                pyTrim (state.getD ""), zip5fn (some (z.getD ""))]
  pyLower (squashWs (pyJoin " " parts))

/-- Embedding of utils.normalize.build_mail_key, the sha1 abstracted as
hash16 (prefer a non-empty source_id; else a hash of full address and
date, with the nonempty prefix mk_; else None). -/
def buildMailKey (hash16 : String → String) (sourceId : Option String)
    (fullAddress : String) (sentDate : Option Date) : Option String :=
  let sid := pyTrim (sourceId.getD "")
  if sid ≠ "" then some sid
  else
    match sentDate with
    | some sd =>
        if fullAddress ≠ "" then
          some ("mk_" ++ hash16 (pyLower (pyTrim fullAddress) ++ "|" ++ sd.iso))
        else none
    | none => none

/-- Embedding of utils.normalize.build_job_index (same rule with the
prefix jid_). -/
def buildJobIndex (hash16 : String → String) (sourceId : Option String)
    (fullAddress : String) (jobDate : Option Date) : Option String :=
  let sid := pyTrim (sourceId.getD "")
  if sid ≠ "" then some sid
  else
    match jobDate with
    | some jd =>
        if fullAddress ≠ "" then
          some ("jid_" ++ hash16 (pyLower (pyTrim fullAddress) ++ "|" ++ jd.iso))
        else none
    | none => none

/-! ### Matcher (services/matching.py, run_matching and helpers)

Input rows are modelled in the shape produced by _canonize_row: every
canonical key present, string-valued, missing keys filled with "". -/

/-- Canonical mail row (the dict after _canonize_row with MAIL_CANON_MAP). -/
structure MailC where
  line_no : String
  source_id : String
  address1 : String
  address2 : String
  city : String
  state : String
  zip : String
  sent_date : String
  deriving DecidableEq, Repr

/-- Canonical CRM row (the dict after _canonize_row with CRM_CANON_MAP). -/
structure CrmC where
  line_no : String
  source_id : String
  address1 : String
  address2 : String
  city : String
  state : String
  zip : String
  job_date : String
  job_value : String
  deriving DecidableEq, Repr

/-- Mail row enriched by _prep_mail_rows with the derived underscore
fields. -/
structure MailP where
  row : MailC
  blk : String
  date : Option Date
  addrStr : String
  zip5 : String
  cityL : String
  stateL : String
  deriving DecidableEq, Repr

/-- CRM row enriched by _prep_crm_rows. -/
structure CrmP where
  row : CrmC
  blk : String
  date : Option Date
  addrStr : String
  zip5 : String
  cityL : String
  stateL : String
  deriving DecidableEq, Repr

/-- Embedding of the per-row body of _prep_mail_rows: _blk from the raw
address1, _date via parse_date_any of sent_date, _addr_str the normalized
address, _zip5 the first five characters of the stripped zip, lowered
city/state. -/
def prepMailRow (r : MailC) : MailP :=
  { row := r
    blk := blockKey r.address1
    date := parseDateAny r.sent_date
    addrStr := normalizeAddress1 r.address1
    zip5 := strTake (pyTrim r.zip) 5
    cityL := pyLower (pyTrim r.city)
    stateL := pyLower (pyTrim r.state) }

/-- Embedding of the per-row body of _prep_crm_rows (identical except the
date source field). -/
def prepCrmRow (r : CrmC) : CrmP :=
  { row := r
    blk := blockKey r.address1
    date := parseDateAny r.job_date
    addrStr := normalizeAddress1 r.address1
    zip5 := strTake (pyTrim r.zip) 5
    cityL := pyLower (pyTrim r.city)
    stateL := pyLower (pyTrim r.state) }

/-- The mail bucket of a block key: mail_groups is a dict built by
setdefault-append over the mail list, so the bucket of blk is exactly the
sublist of mail rows with that _blk, in order (a missing key yields None,
which the call sites treat the same as an empty bucket). -/
def mailGroup (mail : List MailP) (blk : String) : List MailP :=
  mail.filter (fun m => m.blk == blk)

/-- The secondary (block, zip5) bucket mail_groups_zip, built the same
way per _tight_block_key. -/
def mailGroupZip (mail : List MailP) (blk z : String) : List MailP :=
  mail.filter (fun m => m.blk == blk && m.zip5 == z)

/-- Embedding of the candidate pull in run_matching: under FAST_FILTERS
with a nonempty CRM _zip5, try the (block, zip5) bucket and fall back to
the block bucket when that is empty; otherwise the block bucket. -/
def candidatesForCrm (ff : Bool) (mail : List MailP) (c : CrmP) : List MailP :=
  if ff && c.zip5 != "" then
    if (mailGroupZip mail c.blk c.zip5).isEmpty then mailGroup mail c.blk
    else mailGroupZip mail c.blk c.zip5
  else mailGroup mail c.blk

/-- Date-window predicate: mail with no date, or mail dated at or before
the CRM date, survives. -/
def inWindow (dt : Date) (m : MailP) : Bool :=
  match m.date with
  | none => true
  | some d => decide (d ≤ dt)

/-- Embedding of the fast prefilter body: drop the mail row when both
zips are present and differ, or both city and state are present on both
sides and both differ. -/
def fastKeep (c : CrmP) (m : MailP) : Bool :=
  if c.zip5 != "" && m.zip5 != "" && c.zip5 != m.zip5 then false
  else if c.cityL != "" && c.stateL != "" && m.cityL != "" && m.stateL != "" &&
          c.cityL != m.cityL && c.stateL != m.stateL then false
  else true

/-- Embedding of _bonus_adjust: +5 for equal nonempty zip5, +2 for equal
nonempty lowered city, +2 for state, each addition capped at 100. -/
def bonusAdjust (scoreBase : Int) (m : MailP) (c : CrmP) : Int :=
  let s1 := if m.zip5 != "" && c.zip5 != "" && m.zip5 == c.zip5 then
    min 100 (scoreBase + 5) else scoreBase
  let s2 := if m.cityL != "" && c.cityL != "" && m.cityL == c.cityL then
    min 100 (s1 + 2) else s1
  if m.stateL != "" && c.stateL != "" && m.stateL == c.stateL then
    min 100 (s2 + 2) else s2

/-- Embedding of _notes_for. -/
def notesFor (mailRow : MailC) (crmRow : CrmC) : List String :=
  let ta := tokensOf crmRow.address1
  let tb := tokensOf mailRow.address1
  let stA := streetTypeOf ta
  let stB := streetTypeOf tb
  let n1 : List String :=
    if stA ≠ stB ∧ (stA.isSome ∨ stB.isSome) then
      [stB.getD "none" ++ " vs " ++ stA.getD "none" ++ " (street type)"]
    else []
  let dirA := directionalIn ta
  let dirB := directionalIn tb
  let n2 : List String :=
    if dirA ≠ dirB ∧ (dirA.isSome ∨ dirB.isSome) then
      [dirB.getD "none" ++ " vs " ++ dirA.getD "none" ++ " (direction)"]
    else []
  let unitA := pyTrim crmRow.address2
  let unitB := pyTrim mailRow.address2
  let n3 : List String :=
    if (unitA ≠ "") ≠ (unitB ≠ "") then
      [(if unitB = "" then "none" else unitB) ++ " vs " ++
       (if unitA = "" then "none" else unitA) ++ " (unit)"]
    else if unitA ≠ "" ∧ unitB ≠ "" ∧ pyLower unitA ≠ pyLower unitB then
      [unitB ++ " vs " ++ unitA ++ " (unit)"]
    else []
  let notes := n1 ++ n2 ++ n3
  if notes.isEmpty then ["perfect match"] else notes

/-- Model of rapidfuzz process.extractOne with score_cutoff=0 applied to
the candidates' _addr_str values: the first candidate attaining the
maximal score (rapidfuzz keeps the earlier choice on ties; a cutoff of 0
excludes nothing, so a nonempty list always yields a result).  The index
into cand returned by the library is resolved to the candidate itself. -/
def extractOneStep (ratio : String → String → Nat) (q : String)
    (acc : Option (MailP × Nat)) (m : MailP) : Option (MailP × Nat) :=
  let s := ratio q m.addrStr
  match acc with
  | none => some (m, s)
  | some (bm, bs) => if s > bs then some (m, s) else some (bm, bs)

def extractOne (ratio : String → String → Nat) (q : String)
    (cand : List MailP) : Option (MailP × Nat) :=
  cand.foldl (extractOneStep ratio q) none

/-- Model of rapidfuzz process.extract with a limit: every candidate
paired with its score, stably sorted by descending score (ties keep the
original candidate order), truncated to the limit. -/
def extractTopK (ratio : String → String → Nat) (q : String)
    (cand : List MailP) (k : Nat) : List (MailP × Nat) :=
  ((cand.map (fun m => (m, ratio q m.addrStr))).insertionSort
    (fun a b => a.2 ≥ b.2)).take k

/-- Embedding of the top-K loop in run_matching: fold over the extract
results, replacing the incumbent when the bonus-adjusted score is
strictly larger, or equal with an earlier date, where the incoming
candidate's missing date reads as date.min and the incumbent's missing
date as date.max. -/
def selectStep (c : CrmP) (acc : Option MailP × Int) (p : MailP × Nat) :
    Option MailP × Int :=
  let m := p.1
  let adj := bonusAdjust ((p.2 : Nat) : Int) m c
  let mCmp : Date := m.date.getD dateMin
  let bCmp : Date :=
    match acc.1 with
    | some b => b.date.getD dateMax
    | none => dateMax
  if adj > acc.2 ∨ (adj = acc.2 ∧ mCmp < bCmp) then (some m, adj) else acc

def selectTopK (c : CrmP) (pairs : List (MailP × Nat)) : Option MailP × Int :=
  pairs.foldl (selectStep c) (none, -1)

/-- Ascending stable sort of dates (Python sorted on a list of dates). -/
def sortDatesAsc (l : List Date) : List Date :=
  l.insertionSort (fun a b => a ≤ b)

/-- Outcome of one CRM row inside run_matching: a recorded exclusion, a
silent continue, or an emitted match row. -/
structure ExcludedRow where
  source_id : String
  reason : String
  block : String
  address1 : String
  zip : String
  deriving DecidableEq, Repr

/-- The match dict emitted by run_matching (out_rows element). -/
structure OutRow where
  crm_line_no : String
  crm_id : String
  crm_address1 : String
  crm_address2 : String
  crm_city : String
  crm_state : String
  crm_zip : String
  crm_job_date : String
  job_value : String
  mail_id : String
  mail_line_no : String
  mail_full_address : String
  crm_full_address : String
  mail_dates_in_window : String
  mail_count_in_window : Nat
  confidence_percent : Int
  match_notes : String
  deriving DecidableEq, Repr

/-- Result of processing one CRM row. -/
inductive RowResult where
  | excluded (e : ExcludedRow)
  | silent
  | emit (r : OutRow)
  deriving DecidableEq, Repr

/-- Space-joined, double-space-squashed address of the emitted rows
(full_mail / full_crm construction). -/
def joinedAddress (a1 a2 city state z : String) : String :=
  pyTrim (pyReplace
    (pyJoin " " [pyTrim a1, pyTrim a2, pyTrim city, pyTrim state, pyTrim z])
    "  " " ")

/-- Scoring-and-emission tail of the per-CRM-row loop body (everything
after the date window), shared verbatim by both paths of run_matching. -/
def scoreAndEmit (ratio : String → String → Nat) (ff : Bool) (topk : Nat)
    (minScore : Int) (c : CrmP) (cand0 : List MailP) : RowResult :=
  let cand :=
    if ff then
      let kept := cand0.filter (fastKeep c)
      if kept.isEmpty then cand0 else kept
    else cand0
  if cand.isEmpty then RowResult.silent
  else
    let pick : Option (MailP × Int) :=
      if topk ≤ 1 then
        (extractOne ratio c.addrStr cand).map
          (fun p => (p.1, bonusAdjust ((p.2 : Nat) : Int) p.1 c))
      else
        match selectTopK c (extractTopK ratio c.addrStr cand topk) with
        | (some m, s) => some (m, s)
        | (none, _) => none
    let priorDates := sortDatesAsc (cand.filterMap (fun m => m.date))
    let mailDatesList :=
      if priorDates.isEmpty then "None provided"
      else pyJoin ", " (priorDates.map (fun d => fmtMmDdYy (some d)))
    match pick with
    | none => RowResult.silent
    | some (best, score) =>
      let notes := notesFor best.row c.row
      let fullMail := joinedAddress best.row.address1 best.row.address2
        best.row.city best.row.state best.row.zip
      let fullCrm := joinedAddress c.row.address1 c.row.address2
        c.row.city c.row.state c.row.zip
      let r : OutRow :=
        { crm_line_no := c.row.line_no
          crm_id := c.row.source_id
          crm_address1 := c.row.address1
          crm_address2 := c.row.address2
          crm_city := c.row.city
          crm_state := c.row.state
          crm_zip := c.row.zip
          crm_job_date := c.row.job_date
          job_value := c.row.job_value
          mail_id := best.row.source_id
          mail_line_no := best.row.line_no
          mail_full_address := pyReplace (pyReplace fullMail " None" "") " none" ""
          crm_full_address := pyReplace (pyReplace fullCrm " None" "") " none" ""
          mail_dates_in_window := mailDatesList
          mail_count_in_window := priorDates.length
          confidence_percent := score
          match_notes :=
            if notes.isEmpty then "perfect match"
            else pyJoin "; " notes }
      if minScore ≤ score then RowResult.emit r else RowResult.silent

/-- The per-CRM-row loop body of run_matching: candidate pull, exclusion
on an empty bucket, date window, exclusion on an empty window, then the
shared scoring tail. -/
def processCrmRow (ratio : String → String → Nat) (ff : Bool) (topk : Nat)
    (minScore : Int) (mail : List MailP) (c : CrmP) : RowResult :=
  let candidates := candidatesForCrm ff mail c
  if candidates.isEmpty then
    RowResult.excluded
      ⟨c.row.source_id, "no_block_candidates", c.blk, c.row.address1, c.row.zip⟩
  else
    match c.date with
    | some dt =>
      let windowed := candidates.filter (inWindow dt)
      if windowed.isEmpty then
        RowResult.excluded
          ⟨c.row.source_id, "no_date_window_candidates", c.blk,
           c.row.address1, c.row.zip⟩
      else scoreAndEmit ratio ff topk minScore c windowed
    | none => scoreAndEmit ratio ff topk minScore c candidates

/-- Embedding of run_matching.  The module-level excluded_rows_collect
list is modelled as the second component of the result; FAST_FILTERS,
TOPK_RECHECK and MATCH_MIN_SCORE (defaults true, 1, 0) are parameters. -/
def runMatching (ratio : String → String → Nat) (ff : Bool) (topk : Nat)
    (minScore : Int) (mailRows : List MailC) (crmRows : List CrmC) :
    List OutRow × List ExcludedRow :=
  let mail := mailRows.map prepMailRow
  let crm := crmRows.map prepCrmRow
  crm.foldl
    (fun acc c =>
      match processCrmRow ratio ff topk minScore mail c with
      | RowResult.emit r => (acc.1 ++ [r], acc.2)
      | RowResult.excluded e => (acc.1, acc.2 ++ [e])
      | RowResult.silent => acc)
    ([], [])

/-! ### Aggregator (services/summary.py, KPI part of build_payload)

The staging rows fetched by staging_dao are the same canonical shapes
MailC / CrmC; Python floats are modelled as exact rationals. -/

/-- Embedding of _addr_norm_key. -/
def addrNormKey (addr1 city state zipCode : String) : String :=
  pyJoin "|"
    [normalizeAddress1 addr1, pyLower (pyTrim city), pyLower (pyTrim state),
     strTake (pyTrim zipCode) 5]

/-- Embedding of _addr_date_key. -/
def addrDateKey (addr1 city state zipCode : String) (d : Option Date) : String :=
  addrNormKey addr1 city state zipCode ++ "|" ++
    (match d with
     | some dt => dt.iso
     | none => "")

/-- Exact rationals in lowest terms with positive denominator, modelling
the Python float values of the aggregator (every value the claims touch
is an exact small decimal, so exact arithmetic is the faithful model;
the Mathlib Rat operations are avoided only because the kernel cannot
evaluate them, which the theorems below need). -/
structure Q where
  num : Int
  den : Nat
  deriving DecidableEq, Repr

/-- Normalize a fraction with positive denominator to lowest terms; all
Q values are built through this (or are integers over 1), so structural
equality is value equality. -/
def qnorm (n : Int) (d : Nat) : Q :=
  if d = 0 then ⟨0, 1⟩
  else
    let g := Nat.gcd n.natAbs d
    ⟨n / (g : Int), d / g⟩

instance (n : Nat) : OfNat Q n := ⟨⟨(n : Int), 1⟩⟩

/-- Integer as a rational. -/
def Q.ofInt (n : Int) : Q := ⟨n, 1⟩

/-- Addition. -/
def qadd (a b : Q) : Q := qnorm (a.num * b.den + b.num * a.den) (a.den * b.den)

/-- Negation (keeps lowest terms). -/
def qneg (a : Q) : Q := ⟨-a.num, a.den⟩

/-- Subtraction. -/
def qsub (a b : Q) : Q := qadd a (qneg b)

/-- Multiplication. -/
def qmul (a b : Q) : Q := qnorm (a.num * b.num) (a.den * b.den)

/-- Reciprocal (0 for 0, as a total model; never hit at 0 below). -/
def qinv (a : Q) : Q :=
  if a.num = 0 then ⟨0, 1⟩
  else if a.num < 0 then ⟨-(a.den : Int), a.num.natAbs⟩
  else ⟨(a.den : Int), a.num.natAbs⟩

/-- Division. -/
def qdiv (a b : Q) : Q := qmul a (qinv b)

/-- Comparison (denominators are positive). -/
def qlt (a b : Q) : Prop := a.num * (b.den : Int) < b.num * (a.den : Int)

instance (a b : Q) : Decidable (qlt a b) := by
  unfold qlt; exact Int.decLt _ _

/-- Floor to an integer (Python math.floor semantics via floored
division). -/
def qfloor (a : Q) : Int := Int.fdiv a.num (a.den : Int)

/-- Sum of a list (Python sum starting from 0). -/
def qsum (l : List Q) : Q := l.foldl qadd ⟨0, 1⟩

/-- Model of Python float(...) inside _safe_float, restricted to the
optionally signed decimal literals that occur in the data (everything
else, like the exceptions float() raises, yields none and hence 0.0). -/
def parseDecimal (s : String) : Option Q :=
  let t := pyTrim s
  let cs := t.toList
  let neg : Bool := cs.headD ' ' = '-'
  let rest : List Char := if cs.headD ' ' = '-' ∨ cs.headD ' ' = '+' then cs.drop 1 else cs
  let sgn : Int → Int := fun n => if neg then -n else n
  match (splitCList '.' rest).map List.asString with
  | [a] => (toNatD a).map (fun n => Q.ofInt (sgn n))
  | [a, b] =>
      if (a = "" ∧ b = "") ∨ (a ≠ "" ∧ ¬ isDigits a) ∨ (b ≠ "" ∧ ¬ isDigits b) then
        none
      else
        let ip : Nat := (toNatD a).getD 0
        let fp : Nat := (toNatD b).getD 0
        some (qnorm (sgn (ip * 10 ^ b.length + fp)) (10 ^ b.length))
  | _ => none

/-- Embedding of _safe_float. -/
def safeFloat (s : String) : Q := (parseDecimal s).getD 0

/-- Embedding of _median over integer day deltas: 0 on the empty list,
the middle element of the sorted list, or the mean of the two middle
elements. -/
def medianInt (values : List Int) : Q :=
  if values.isEmpty then 0
  else
    let s := values.insertionSort (fun a b => a ≤ b)
    let n := s.length
    let mid := n / 2
    if n % 2 = 1 then Q.ofInt (s.getD mid 0)
    else qdiv (Q.ofInt (s.getD (mid - 1) 0 + s.getD mid 0)) 2

/-- Model of Python round(x, 2) as exact half-even rounding of the
rational to two decimal places (the values compared in the theorems are
exactly representable). -/
def roundTo2 (q : Q) : Q :=
  let n := qmul q 100
  let f : Int := qfloor n
  let r := qsub n (Q.ofInt f)
  let half : Q := qdiv 1 2
  if qlt r half then qdiv (Q.ofInt f) 100
  else if qlt half r then qdiv (Q.ofInt (f + 1)) 100
  else if f % 2 = 0 then qdiv (Q.ofInt f) 100 else qdiv (Q.ofInt (f + 1)) 100

/-- Number of distinct elements, modelling the final size of a Python
set filled along the iteration. -/
def countDistinct (l : List String) : Nat := l.eraseDups.length

/-- Embedding of the two counts of _compute_mail_uniques that the KPI
block uses: total_mail_lines (distinct address+date keys) and
unique_mail_addresses (distinct address keys).  The by-month and by-city
maps feed only the graph and top_cities parts of the payload, which no
claim mentions and which are not modelled. -/
def computeMailUniques (mailRows : List MailC) : Nat × Nat :=
  let lineKeys := mailRows.map
    (fun r => addrDateKey r.address1 r.city r.state r.zip (parseDateAny r.sent_date))
  let addrKeys := mailRows.map
    (fun r => addrNormKey r.address1 r.city r.state r.zip)
  (countDistinct lineKeys, countDistinct addrKeys)

/-- Embedding of the count of _compute_job_uniques: distinct normalized
address + job_date keys. -/
def computeJobUniques (crmRows : List CrmC) : Nat :=
  countDistinct (crmRows.map
    (fun r => addrDateKey r.address1 r.city r.state r.zip (parseDateAny r.job_date)))

/-- The convert-delta of one match row in build_payload: the first
comma-piece of mail_dates_in_window and crm_job_date, both through
_parse_mm_dd_yy, give (job - first mail) in days when both parse. -/
def convertDelta (m : OutRow) : Option Int :=
  let md := m.mail_dates_in_window
  let firstMailStr : Option String :=
    if md ≠ "" ∧ md ≠ "None provided" then some (pyTrim ((pySplitC ',' md).headD ""))
    else none
  let d0 : Option Date :=
    match firstMailStr with
    | some s => if s ≠ "" then parseMmDdYy s else none
    | none => none
  let d1 : Option Date :=
    if m.crm_job_date ≠ "" then parseMmDdYy m.crm_job_date else none
  match d0, d1 with
  | some a, some b => some (b.toRd - a.toRd)
  | _, _ => none

/-- The kpis object of the payload. -/
structure Kpis where
  total_mail : Nat
  unique_mail_addresses : Nat
  total_jobs : Nat
  matchCount : Nat
  match_rate : Q
  match_revenue : Q
  revenue_per_mailer : Q
  avg_ticket_per_match : Q
  median_days_to_convert : Q
  deriving DecidableEq, Repr

/-- Embedding of the KPI block of summary.build_payload: run_matching
over the staging rows, then the counts, rates (note the denominator of
match_rate is unique_mail_addresses in the source) and the median of the
convert deltas.  The graph, top_cities, top_zips and summary parts of
the payload are not modelled (no claim refers to them). -/
def buildPayloadKpis (ratio : String → String → Nat) (ff : Bool) (topk : Nat)
    (minScore : Int) (mailRows : List MailC) (crmRows : List CrmC) : Kpis :=
  let matchesList := (runMatching ratio ff topk minScore mailRows crmRows).1
  let mailUniques := computeMailUniques mailRows
  let totalMailLines := mailUniques.1
  let uniqueMailAddresses := mailUniques.2
  let totalJobs := computeJobUniques crmRows
  let totalMatches := matchesList.length
  let matchRate : Q :=
    if uniqueMailAddresses ≠ 0 then
      qmul (qdiv (Q.ofInt totalMatches) (Q.ofInt uniqueMailAddresses)) 100
    else 0
  let matchRevenue : Q := qsum (matchesList.map (fun m => safeFloat m.job_value))
  let revenuePerMailer : Q :=
    if totalMailLines ≠ 0 then qdiv matchRevenue (Q.ofInt totalMailLines) else 0
  let avgTicket : Q :=
    if totalMatches ≠ 0 then qdiv matchRevenue (Q.ofInt totalMatches) else 0
  let convertDeltas : List Int := matchesList.filterMap convertDelta
  { total_mail := totalMailLines
    unique_mail_addresses := uniqueMailAddresses
    total_jobs := totalJobs
    matchCount := totalMatches
    match_rate := roundTo2 matchRate
    match_revenue := roundTo2 matchRevenue
    revenue_per_mailer := roundTo2 revenuePerMailer
    avg_ticket_per_match := roundTo2 avgTicket
    median_days_to_convert := medianInt convertDeltas }

/-! ### Match store (dao/matches_dao.py) and persist wrapper
(services/matching.py persist_matches_for_run) -/

/-- A row of the matches table, with the columns bound by bulk_insert.
crm_job_date and job_value hold the bound parameter values (strings from
the emitted dict; the database coerces them on insert). -/
structure StoredMatch where
  run_id : String
  user_id : String
  crm_line_no : String
  job_index : Option String
  crm_job_date : String
  job_value : String
  crm_city : String
  crm_state : String
  crm_zip : String
  mail_full_address : String
  crm_full_address : String
  mail_ids : List String
  matched_mail_dates : List Date
  confidence_percent : Int
  match_notes : String
  zip5 : String
  state : String
  deriving DecidableEq, Repr

/-- The dict built by persist_matches_for_run for one emitted row: the
spread of the run_matching row plus _crm_job_date_py, _last_mail_date_py
and the denormalized zip5/state.  The keys job_index, mail_ids and
matched_mail_dates are NOT present in this dict (run_matching emits the
legacy keys crm_id / mail_id / mail_dates_in_window instead), which is
what the absent-key Option-free modelling below records. -/
structure Transformed where
  base : OutRow
  crmJobDatePy : Option Date
  lastMailDatePy : Option Date
  zip5 : String
  state : String
  deriving DecidableEq, Repr

/-- Maximum of a list of dates (Python max on a nonempty list). -/
def maxDate (l : List Date) : Option Date :=
  l.foldl (fun acc d =>
    match acc with
    | none => some d
    | some b => if b < d then some d else some b) none

/-- Embedding of the transformation loop of persist_matches_for_run. -/
def transformRow (r : OutRow) : Transformed :=
  let crmJobDatePy := parseMmDdYy r.crm_job_date
  let md := pyTrim r.mail_dates_in_window
  let lastMailPy : Option Date :=
    if md ≠ "" ∧ md ≠ "None provided" then
      let parts := ((pySplitC ',' md).map pyTrim).filter (fun p => p ≠ "")
      maxDate (parts.filterMap parseMmDdYy)
    else none
  { base := r
    crmJobDatePy := crmJobDatePy
    lastMailDatePy := lastMailPy
    zip5 := strTake r.crm_zip 5
    state := strTake r.crm_state 2 }

/-- Embedding of matches_dao._ensure_defaults plus the named-parameter
binding of bulk_insert: every column the INSERT lists is taken from the
row dict, and the keys the dict lacks (job_index, mail_ids,
matched_mail_dates) receive the setdefault defaults None, [] and [].
Note the SQL binds :crm_job_date to the raw crm_job_date string of the
dict, not to the parsed _crm_job_date_py helper. -/
def ensureDefaultsStored (runId userId : String) (t : Transformed) : StoredMatch :=
  { run_id := runId
    user_id := userId
    crm_line_no := t.base.crm_line_no
    job_index := none
    crm_job_date := t.base.crm_job_date
    job_value := t.base.job_value
    crm_city := t.base.crm_city
    crm_state := t.base.crm_state
    crm_zip := t.base.crm_zip
    mail_full_address := t.base.mail_full_address
    crm_full_address := t.base.crm_full_address
    mail_ids := []
    matched_mail_dates := []
    confidence_percent := t.base.confidence_percent
    match_notes := t.base.match_notes
    zip5 := t.zip5
    state := t.state }

/-- Conflict test of the unique constraint (user_id, job_index) under
Postgres semantics: a NULL job_index never conflicts. -/
def matchConflicts (a b : StoredMatch) : Bool :=
  a.user_id == b.user_id && a.job_index.isSome && a.job_index == b.job_index

/-- ON CONFLICT DO UPDATE of one row into the matches table: overwrite
every SET column of the conflicting row, else append. -/
def upsertMatch (table : List StoredMatch) (new : StoredMatch) : List StoredMatch :=
  if table.any (fun r => matchConflicts r new) then
    table.map (fun r =>
      if matchConflicts r new then
        { r with
          run_id := new.run_id
          crm_line_no := new.crm_line_no
          crm_job_date := new.crm_job_date
          job_value := new.job_value
          crm_city := new.crm_city
          crm_state := new.crm_state
          crm_zip := new.crm_zip
          mail_full_address := new.mail_full_address
          crm_full_address := new.crm_full_address
          mail_ids := new.mail_ids
          matched_mail_dates := new.matched_mail_dates
          confidence_percent := new.confidence_percent
          match_notes := new.match_notes
          zip5 := new.zip5
          state := new.state }
      else r)
  else table ++ [new]

/-- Embedding of matches_dao.bulk_insert: defaults applied, rows upserted
in order (the 1000-row chunking only batches the same sequence of
upserts), returning the new table and the reported insert count. -/
def bulkInsert (runId userId : String) (table : List StoredMatch)
    (rows : List Transformed) : List StoredMatch × Nat :=
  let stored := rows.map (ensureDefaultsStored runId userId)
  (stored.foldl upsertMatch table, stored.length)

/-- Embedding of matches_dao.delete_for_run. -/
def deleteForRun (runId userId : String) (table : List StoredMatch) :
    List StoredMatch :=
  table.filter (fun r => ¬ (r.run_id == runId && r.user_id == userId))

/-- Embedding of persist_matches_for_run: run the matcher, transform the
rows, clear the (run, user) slice, bulk-insert. -/
def persistMatchesForRun (ratio : String → String → Nat) (ff : Bool)
    (topk : Nat) (minScore : Int) (table : List StoredMatch)
    (runId userId : String) (mailRows : List MailC) (crmRows : List CrmC) :
    List StoredMatch × Nat :=
  let rawRows := (runMatching ratio ff topk minScore mailRows crmRows).1
  let transformed := rawRows.map transformRow
  let cleared := deleteForRun runId userId table
  bulkInsert runId userId cleared transformed

/-! ### Staging store (dao/mapper_dao.py insert_normalized_mail /
insert_normalized_crm) -/

/-- A row handed to insert_normalized_mail (the rows_for_db dicts of the
pipeline): keys that the pipeline may leave absent or None are Option. -/
structure MailDbRow where
  mail_key : Option String
  source_id : Option String
  address1 : Option String
  address2 : Option String
  city : Option String
  state : Option String
  zip : Option String
  full_address : Option String
  sent_date : Option Date
  deriving DecidableEq, Repr

/-- A row of the staging_mail table. -/
structure StagedMail where
  run_id : String
  user_id : String
  mail_key : String
  source_id : Option String
  address1 : String
  address2 : Option String
  city : String
  state : String
  zip : String
  full_address : String
  sent_date : Option Date
  deriving DecidableEq, Repr

/-- The payload dict of one mail row (the literal conversions of the
payload loop in insert_normalized_mail). -/
def mailPayload (runId userId : String) (r : MailDbRow) : StagedMail :=
  { run_id := runId
    user_id := userId
    mail_key := pyTrim (r.mail_key.getD "")
    source_id :=
      match r.source_id with
      | some s => if pyTrim s ≠ "" then some (pyTrim s) else none
      | none => none
    address1 := pyTrim (r.address1.getD "")
    address2 :=
      match r.address2 with
      | some s => if pyTrim s ≠ "" then some (pyTrim s) else none
      | none => none
    city := pyTrim (r.city.getD "")
    state := pyTrim (r.state.getD "")
    zip := pyTrim (r.zip.getD "")
    full_address := pyTrim (r.full_address.getD "")
    sent_date := r.sent_date }

/-- The in-memory dedup loop of insert_normalized_mail: a blank mail_key
raises ValueError (modelled as Except.error with the message), later
duplicates of a key are dropped. -/
def dedupMailRows (rows : List MailDbRow) (seen : List String) :
    Except String (List MailDbRow) :=
  match rows with
  | [] => Except.ok []
  | r :: rest =>
    if pyTrim (r.mail_key.getD "") = "" then
      Except.error "mail_key is required for all mail rows"
    else if seen.contains (pyTrim (r.mail_key.getD "")) then
      dedupMailRows rest seen
    else
      match dedupMailRows rest (pyTrim (r.mail_key.getD "") :: seen) with
      | Except.ok l => Except.ok (r :: l)
      | Except.error e => Except.error e

/-- ON CONFLICT (user_id, mail_key) DO UPDATE of one staged mail row:
rebind run_id, keep the old source_id when the new one is NULL, refresh
every normalized field; append when the key is new. -/
def upsertStagedMail (table : List StagedMail) (new : StagedMail) :
    List StagedMail :=
  if table.any (fun r => r.user_id == new.user_id && r.mail_key == new.mail_key) then
    table.map (fun r =>
      if r.user_id == new.user_id && r.mail_key == new.mail_key then
        { r with
          run_id := new.run_id
          source_id :=
            match new.source_id with
            | some s => some s
            | none => r.source_id
          address1 := new.address1
          address2 := new.address2
          city := new.city
          state := new.state
          zip := new.zip
          full_address := new.full_address
          sent_date := new.sent_date }
      else r)
  else table ++ [new]

/-- Embedding of insert_normalized_mail: empty input short-circuits,
dedup (raising on a blank key), payload conversion, one upsert per
payload row, count = number of payload rows. -/
def insertNormalizedMail (runId userId : String) (rows : List MailDbRow)
    (table : List StagedMail) : Except String (List StagedMail × Nat) :=
  if rows.isEmpty then Except.ok (table, 0)
  else
    match dedupMailRows rows [] with
    | Except.error e => Except.error e
    | Except.ok dedup =>
      let payload := dedup.map (mailPayload runId userId)
      Except.ok (payload.foldl upsertStagedMail table, payload.length)

/-- A row handed to insert_normalized_crm. -/
structure CrmDbRow where
  job_index : Option String
  source_id : Option String
  address1 : Option String
  address2 : Option String
  city : Option String
  state : Option String
  zip : Option String
  full_address : Option String
  job_date : Option Date
  job_value : Option String
  deriving DecidableEq, Repr

/-- A row of the staging_crm table. -/
structure StagedCrm where
  run_id : String
  user_id : String
  job_index : String
  source_id : Option String
  address1 : String
  address2 : Option String
  city : String
  state : String
  zip : String
  full_address : String
  job_date : Option Date
  job_value : Option String
  deriving DecidableEq, Repr

/-- The payload dict of one CRM row. -/
def crmPayload (runId userId : String) (r : CrmDbRow) : StagedCrm :=
  { run_id := runId
    user_id := userId
    job_index := pyTrim (r.job_index.getD "")
    source_id :=
      match r.source_id with
      | some s => if pyTrim s ≠ "" then some (pyTrim s) else none
      | none => none
    address1 := pyTrim (r.address1.getD "")
    address2 :=
      match r.address2 with
      | some s => if pyTrim s ≠ "" then some (pyTrim s) else none
      | none => none
    city := pyTrim (r.city.getD "")
    state := pyTrim (r.state.getD "")
    zip := pyTrim (r.zip.getD "")
    full_address := pyTrim (r.full_address.getD "")
    job_date := r.job_date
    job_value := r.job_value }

/-- The in-memory dedup loop of insert_normalized_crm. -/
def dedupCrmRows (rows : List CrmDbRow) (seen : List String) :
    Except String (List CrmDbRow) :=
  match rows with
  | [] => Except.ok []
  | r :: rest =>
    if pyTrim (r.job_index.getD "") = "" then
      Except.error "job_index is required for all CRM rows"
    else if seen.contains (pyTrim (r.job_index.getD "")) then
      dedupCrmRows rest seen
    else
      match dedupCrmRows rest (pyTrim (r.job_index.getD "") :: seen) with
      | Except.ok l => Except.ok (r :: l)
      | Except.error e => Except.error e

/-- ON CONFLICT (user_id, job_index) DO UPDATE of one staged CRM row
(job_value keeps the old value when the new one is NULL). -/
def upsertStagedCrm (table : List StagedCrm) (new : StagedCrm) :
    List StagedCrm :=
  if table.any (fun r => r.user_id == new.user_id && r.job_index == new.job_index) then
    table.map (fun r =>
      if r.user_id == new.user_id && r.job_index == new.job_index then
        { r with
          run_id := new.run_id
          source_id :=
            match new.source_id with
            | some s => some s
            | none => r.source_id
          address1 := new.address1
          address2 := new.address2
          city := new.city
          state := new.state
          zip := new.zip
          full_address := new.full_address
          job_date := new.job_date
          job_value :=
            match new.job_value with
            | some v => some v
            | none => r.job_value }
      else r)
  else table ++ [new]

/-- Embedding of insert_normalized_crm. -/
def insertNormalizedCrm (runId userId : String) (rows : List CrmDbRow)
    (table : List StagedCrm) : Except String (List StagedCrm × Nat) :=
  if rows.isEmpty then Except.ok (table, 0)
  else
    match dedupCrmRows rows [] with
    | Except.error e => Except.error e
    | Except.ok dedup =>
      let payload := dedup.map (crmPayload runId userId)
      Except.ok (payload.foldl upsertStagedCrm table, payload.length)

/-! ### Pipeline normalization (services/pipeline.py normalize_from_raw,
per-source branches over the rows produced by apply_mapping) -/

/-- A canonical row as produced by apply_mapping for the mail source:
string-or-None per canonical key (the id key is the mail alias-map
canonical for the CSV id column; source_id is present only when an
explicit mapping supplies it, and both are read by the branch). -/
structure MailNormIn where
  source_id : Option String
  id : Option String
  address1 : Option String
  address2 : Option String
  city : Option String
  state : Option String
  zip : Option String
  sent_date : Option String
  deriving DecidableEq, Repr

/-- A canonical row for the CRM source. -/
structure CrmNormIn where
  source_id : Option String
  id : Option String
  address1 : Option String
  address2 : Option String
  city : Option String
  state : Option String
  zip : Option String
  job_date : Option String
  job_value : Option String
  deriving DecidableEq, Repr

/-- Python "a or b" over optional strings (None and "" are falsy). -/
def pyOr (a b : Option String) : Option String :=
  match a with
  | some s => if s = "" then b else some s
  | none => b

/-- Embedding of the nested helpers _none_if_empty + _to_str_or_none. -/
def toStrOrNone (v : Option String) : Option String :=
  match v with
  | none => none
  | some s => if pyTrim s = "" then none else some (pyTrim s)

/-- Embedding of pipeline.to_date_or_none on the optional string values
of canonical rows (an already-date value cannot occur here; the format
list and code are those of parse_date_any). -/
def toDateOrNone (v : Option String) : Option Date :=
  match v with
  | none => none
  | some s => parseDateAny s

/-- The mail branch of normalize_from_raw, one row: sent_date is coerced
to a date or None, full_address is built (NOTE: the source call site
passes address2/city/state/zip positionally into the (addr1, city,
state, z, addr2) parameters of build_full_address, which is reproduced
here verbatim), source_id is filled from source_id-or-id; no mail_key is
ever attached and no row is dropped. -/
def mailBranchRow (r : MailNormIn) : MailDbRow :=
  let sentDate := toDateOrNone r.sent_date
  let fullAddr := buildFullAddress r.address1 r.address2 r.city r.state r.zip
  { mail_key := none
    source_id := toStrOrNone (pyOr r.source_id r.id)
    address1 := r.address1
    address2 := r.address2
    city := r.city
    state := r.state
    zip := r.zip
    full_address := some fullAddr
    sent_date := sentDate }

/-- The rows_for_db list the mail branch hands to
insert_normalized_mail. -/
def mailBranchRowsForDb (rows : List MailNormIn) : List MailDbRow :=
  rows.map mailBranchRow

/-- The CRM branch of normalize_from_raw, one row: job_date coerced (the
canonical rows have no date / created_at keys, so those fallbacks of the
source are always None), full_address built with the same positional
call, job_index synthesized via build_job_index; a row whose job_index
is falsy is marked _skip and dropped from rows_for_db. -/
def crmBranchRowsForDb (hash16 : String → String) (rows : List CrmNormIn) :
    List CrmDbRow :=
  rows.filterMap (fun r =>
    if ((buildJobIndex hash16 (pyOr r.source_id r.id)
          (buildFullAddress r.address1 r.address2 r.city r.state r.zip)
          (toDateOrNone r.job_date)).getD "") = "" then none
    else
      some
        { job_index :=
            buildJobIndex hash16 (pyOr r.source_id r.id)
              (buildFullAddress r.address1 r.address2 r.city r.state r.zip)
              (toDateOrNone r.job_date)
          source_id := toStrOrNone (pyOr r.source_id r.id)
          address1 := r.address1
          address2 := r.address2
          city := r.city
          state := r.state
          zip := r.zip
          full_address :=
            some (buildFullAddress r.address1 r.address2 r.city r.state r.zip)
          job_date := toDateOrNone r.job_date
          job_value := r.job_value })

/-! ### Run store (dao/run_dao.py update_step) -/

/-- A row of the runs table (the columns update_step touches plus a few
untouched ones for the frame property). -/
structure RunRow where
  id : String
  user_id : String
  status : String
  step : String
  pct : Int
  message : String
  started_at : Nat
  finished_at : Option Nat
  deriving DecidableEq, Repr

/-- Embedding of run_dao.update_step on the addressed row: step, pct and
message are always set (Python "message or ''" is the identity on
strings, "" staying ""); status becomes done / failed exactly when the
step argument is that literal, else keeps its value; finished_at is set
to NOW() (the now argument) exactly for those two steps, else keeps its
value. -/
def updateStep (row : RunRow) (step : String) (pct : Int) (message : String)
    (now : Nat) : RunRow :=
  { row with
    step := step
    pct := pct
    message := message
    status :=
      if step = "done" then "done"
      else if step = "failed" then "failed"
      else row.status
    finished_at :=
      if step = "done" ∨ step = "failed" then some now else row.finished_at }

/-! ## Concrete fixtures

A computable stand-in for the rapidfuzz scorer, used to instantiate the
ratio parameter at concrete inputs: it agrees with fuzz.token_set_ratio
on the inputs of the fixtures (identical strings score 100 in rapidfuzz;
the fixture pairs that score 0 here share no token, where the real
scorer is likewise below every bonus-free tie). -/
def tokenSetRatioModel (a b : String) : Nat := if a == b then 100 else 0

/-- Mail fixture: M1 in Austin, sent 2024-01-10. -/
def mailAustinJan : MailC :=
  ⟨"1", "M1", "123 MAIN ST", "", "Austin", "TX", "78701", "01-10-2024"⟩

/-- Mail fixture: M2, same address, sent 2024-02-01. -/
def mailAustinFeb : MailC :=
  ⟨"2", "M2", "123 MAIN ST", "", "Austin", "TX", "78701", "02-01-2024"⟩

/-- CRM fixture: J1 at the same address, job 2024-03-01, value 500. -/
def crmAustinJ1 : CrmC :=
  ⟨"1", "J1", "123 main street", "", "Austin", "TX", "78701", "03-01-2024", "500"⟩

/-- CRM fixture: J2 at the same address, job 2024-04-01, value 250. -/
def crmAustinJ2 : CrmC :=
  ⟨"2", "J2", "123 main street", "", "Austin", "TX", "78701", "04-01-2024", "250"⟩

/-- CRM fixture: a job whose address shares no block key with any mail
fixture (but shares the Austin zip). -/
def crmOakRd : CrmC :=
  ⟨"3", "JO", "456 Oak Rd", "", "Austin", "TX", "78701", "03-01-2024", "50"⟩

/-- Mail fixture: earlier candidate index, later date (2024-02-01). -/
def mailElmLate : MailC :=
  ⟨"1", "M-late", "10 Elm Ave", "", "Boston", "MA", "02139", "02-01-2024"⟩

/-- Mail fixture: later candidate index, earlier date (2024-01-10). -/
def mailElmEarly : MailC :=
  ⟨"2", "M-early", "10 Elm Ave", "", "Boston", "MA", "02139", "01-10-2024"⟩

/-- Mail fixture: dated Elm candidate for the top-K path. -/
def mailElmDated : MailC :=
  ⟨"3", "M-dated", "10 Elm Ave", "", "Boston", "MA", "02139", "01-10-2024"⟩

/-- Mail fixture: Elm candidate with an unparseable (hence null) date. -/
def mailElmNoDate : MailC :=
  ⟨"4", "M-null", "10 Elm Ave", "", "Boston", "MA", "02139", ""⟩

/-- CRM fixture: Elm job, 2024-03-01. -/
def crmElm : CrmC :=
  ⟨"1", "JE", "10 Elm Ave", "", "Boston", "MA", "02139", "03-01-2024", "100"⟩

/-! ## Claims -/

/-- C1, counterexample.  One mail address and two matched jobs: the
payload reports match_rate 200 (the source divides by
unique_mail_addresses = 1), while the claimed formula
round(matches / total_jobs * 100, 2) gives 100; so the claim is false on
this input. -/
theorem match_rate_counterexample :
    (buildPayloadKpis tokenSetRatioModel true 1 0 [mailAustinJan]
        [crmAustinJ1, crmAustinJ2]).matchCount = 2 ∧
    (buildPayloadKpis tokenSetRatioModel true 1 0 [mailAustinJan]
        [crmAustinJ1, crmAustinJ2]).total_jobs = 2 ∧
    (buildPayloadKpis tokenSetRatioModel true 1 0 [mailAustinJan]
        [crmAustinJ1, crmAustinJ2]).match_rate = (200 : Q) ∧
    roundTo2 (qmul (qdiv (Q.ofInt 2) (Q.ofInt 2)) 100) = (100 : Q) ∧
    (buildPayloadKpis tokenSetRatioModel true 1 0 [mailAustinJan]
        [crmAustinJ1, crmAustinJ2]).match_rate ≠
      roundTo2 (qmul (qdiv (Q.ofInt 2) (Q.ofInt 2)) 100) := by
  decide

/-- The match_rate formula that the source actually computes, written
from the amended claim: round(matches / unique_mail_addresses * 100, 2),
0 when unique_mail_addresses is 0. -/
def matchRateAmendedSpec (k : Kpis) : Q :=
  if k.unique_mail_addresses = 0 then 0
  else roundTo2 (qmul (qdiv (Q.ofInt k.matchCount) (Q.ofInt k.unique_mail_addresses)) 100)

/-- C1, amended.  For every payload, kpis.match_rate equals
round(matches / unique_mail_addresses * 100, 2) with 0 when
unique_mail_addresses is 0 (the denominator is the unique-mail-address
count, not total_jobs). -/
theorem match_rate_amended (ratio : String → String → Nat) (ff : Bool)
    (topk : Nat) (minScore : Int) (mailRows : List MailC) (crmRows : List CrmC) :
    (buildPayloadKpis ratio ff topk minScore mailRows crmRows).match_rate =
      matchRateAmendedSpec (buildPayloadKpis ratio ff topk minScore mailRows crmRows) := by
  unfold buildPayloadKpis matchRateAmendedSpec
  by_cases h : (computeMailUniques mailRows).2 = 0
  · simp [h]
    decide
  · simp [h]

/-- C5, counterexample.  Two mail dates 2024-01-10 and 2024-02-01 in the
window of a 2024-03-01 job: the source uses the first (earliest) listed
mail date, giving a median of 51 days, while the claimed formula
(job minus the maximum matched date) gives 29; so the claim is false on
this input. -/
theorem median_days_counterexample :
    ((runMatching tokenSetRatioModel true 1 0 [mailAustinJan, mailAustinFeb]
        [crmAustinJ1]).1.map (fun r => r.mail_dates_in_window)) =
      ["01-10-24, 02-01-24"] ∧
    Date.toRd ⟨2024, 3, 1⟩ - Date.toRd ⟨2024, 2, 1⟩ = 29 ∧
    medianInt [29] = (29 : Q) ∧
    (buildPayloadKpis tokenSetRatioModel true 1 0 [mailAustinJan, mailAustinFeb]
        [crmAustinJ1]).median_days_to_convert = (51 : Q) ∧
    (51 : Q) ≠ (29 : Q) := by
  decide

/-- The median-days computation the source performs, written from the
amended claim: over match rows, parse the FIRST comma-listed mail date
and the crm_job_date with the mm-dd-yy(yy) parser, take job minus first
mail date in days with no sign filter, and take the median (0 when
empty). -/
def medianDaysAmendedSpec (matchesList : List OutRow) : Q :=
  medianInt (matchesList.filterMap (fun m =>
    let md := m.mail_dates_in_window
    let firstPiece : Option String :=
      if md ≠ "" ∧ md ≠ "None provided" then some (pyTrim ((pySplitC ',' md).headD ""))
      else none
    let d0 : Option Date :=
      match firstPiece with
      | some s => if s ≠ "" then parseMmDdYy s else none
      | none => none
    let d1 : Option Date :=
      if m.crm_job_date ≠ "" then parseMmDdYy m.crm_job_date else none
    match d0, d1 with
    | some a, some b => some (b.toRd - a.toRd)
    | _, _ => none))

instance : IsTrans Date (· ≤ ·) := ⟨fun _ _ _ hab hbc => Int.le_trans hab hbc⟩

instance : IsTotal Date (· ≤ ·) := ⟨fun a b => Int.le_total a.toRd b.toRd⟩

/-- C6/C5 helper: the head of the ascending date sort is a member and a
lower bound, so the first listed window date is the earliest one. -/
theorem sortDatesAsc_head_min (l : List Date) (d : Date)
    (h : (sortDatesAsc l).head? = some d) : d ∈ l ∧ ∀ d2 ∈ l, d ≤ d2 := by
  have hperm : (sortDatesAsc l).Perm l := List.perm_insertionSort _ l
  have hsorted : List.Sorted (fun a b : Date => a ≤ b) (sortDatesAsc l) :=
    List.sorted_insertionSort _ l
  cases hs : sortDatesAsc l with
  | nil => rw [hs] at h; cases h
  | cons x xs =>
    rw [hs] at h hperm hsorted
    have hx : x = d := by simpa using h
    constructor
    · exact hperm.mem_iff.mp (hx ▸ List.mem_cons_self _ _)
    · intro d2 hd2
      have hd2' : d2 ∈ x :: xs := hperm.mem_iff.mpr hd2
      rcases List.mem_cons.mp hd2' with h1 | h1
      · rw [← hx, h1]; exact Int.le_refl _
      · exact hx ▸ List.rel_of_sorted_cons hsorted d2 h1

/-- C5, amended.  kpis.median_days_to_convert is the median over matches
of (crm_job_date minus the FIRST listed mail date), both parsed by the
mm-dd-yy(yy) parser, with no non-negativity filter and 0 when empty; and
the first listed date is the head of the ascending sort of the window
dates, hence the earliest of them. -/
theorem median_days_amended (ratio : String → String → Nat) (ff : Bool)
    (topk : Nat) (minScore : Int) (mailRows : List MailC) (crmRows : List CrmC) :
    ((buildPayloadKpis ratio ff topk minScore mailRows crmRows).median_days_to_convert =
      medianDaysAmendedSpec
        ((runMatching ratio ff topk minScore mailRows crmRows).1)) ∧
    (∀ (l : List Date) (d : Date),
      (sortDatesAsc l).head? = some d → d ∈ l ∧ ∀ d2 ∈ l, d ≤ d2) := by
  constructor
  · rfl
  · exact sortDatesAsc_head_min

/-- C2, code_bug evidence.  A run with one clean match (mail M1, in the
window, non-empty source_id and a parsed date): the persisted row
nevertheless stores mail_ids = [] and matched_mail_dates = [] (and
job_index NULL), because the dict built by persist_matches_for_run never
carries those keys and _ensure_defaults fills the defaults. -/
theorem persist_arrays_empty :
    ((persistMatchesForRun tokenSetRatioModel true 1 0 [] "r1" "u1"
        [mailAustinJan] [crmAustinJ1]).1.map
      (fun r => (r.mail_ids, r.matched_mail_dates, r.job_index))) =
      [(([] : List String), ([] : List Date), (none : Option String))] ∧
    (persistMatchesForRun tokenSetRatioModel true 1 0 [] "r1" "u1"
        [mailAustinJan] [crmAustinJ1]).2 = 1 ∧
    mailAustinJan.source_id = "M1" ∧
    ((runMatching tokenSetRatioModel true 1 0 [mailAustinJan]
        [crmAustinJ1]).1.map (fun r => r.mail_id)) = ["M1"] := by
  decide

deriving instance DecidableEq for Except

/-- C9, code_bug evidence.  normalize_from_raw (mail) does not skip the
row whose sent_date fails to parse: the row stays in the batch with
sent_date None, and because the mail branch never attaches a mail_key,
insert_normalized_mail then rejects the WHOLE batch (parseable rows
included) with ValueError, so nothing at all reaches staging_mail. -/
theorem mail_null_date_not_skipped :
    (mailBranchRowsForDb
        [⟨some "M1", none, some "123 MAIN ST", none, some "Austin", some "TX",
          some "78701", some "01-10-2024"⟩,
         ⟨some "M2", none, some "9 Oak Rd", none, some "Austin", some "TX",
          some "78701", some "notadate"⟩]).length = 2 ∧
    (mailBranchRow ⟨some "M2", none, some "9 Oak Rd", none, some "Austin",
        some "TX", some "78701", some "notadate"⟩).sent_date = none ∧
    (mailBranchRow ⟨some "M2", none, some "9 Oak Rd", none, some "Austin",
        some "TX", some "78701", some "notadate"⟩).mail_key = none ∧
    insertNormalizedMail "r1" "u1"
      (mailBranchRowsForDb
        [⟨some "M1", none, some "123 MAIN ST", none, some "Austin", some "TX",
          some "78701", some "01-10-2024"⟩,
         ⟨some "M2", none, some "9 Oak Rd", none, some "Austin", some "TX",
          some "78701", some "notadate"⟩]) [] =
      Except.error "mail_key is required for all mail rows" := by
  decide

/-- C3, counterexample.  A CRM row (456 Oak Rd) whose block key matches
no mail row is excluded with reason no_block_candidates even though mail
rows exist and even share its zip5: candidate selection is indexed by
the block key, not the zip, and there is no all-mail fallback. -/
theorem block_candidates_counterexample :
    runMatching tokenSetRatioModel true 1 0 [mailAustinJan] [crmOakRd] =
      ([], [⟨"JO", "no_block_candidates", "456|o", "456 Oak Rd", "78701"⟩]) ∧
    (prepMailRow mailAustinJan).zip5 = (prepCrmRow crmOakRd).zip5 ∧
    (prepMailRow mailAustinJan).blk ≠ (prepCrmRow crmOakRd).blk := by
  decide

/-- C4, counterexample.  (a) Default single-best path (TOPK=1): two
candidates with identical address strings (equal base score 100 and
equal bonuses) but different dates; the emitted winner is M-late, the
candidate at the lower index with the LATER date, so no earliest-date
tie-break is applied.  (b) Top-K path (TOPK=2): a candidate with a null
date wins the tie against a dated incumbent, i.e. the null date is
treated as infinitely early, not infinitely late as claimed. -/
theorem tie_break_counterexample :
    (((runMatching tokenSetRatioModel true 1 0 [mailElmLate, mailElmEarly]
        [crmElm]).1.map (fun r => r.mail_id)) = ["M-late"] ∧
      bonusAdjust 100 (prepMailRow mailElmEarly) (prepCrmRow crmElm) =
        bonusAdjust 100 (prepMailRow mailElmLate) (prepCrmRow crmElm) ∧
      (prepMailRow mailElmEarly).date = some ⟨2024, 1, 10⟩ ∧
      (prepMailRow mailElmLate).date = some ⟨2024, 2, 1⟩) ∧
    (((runMatching tokenSetRatioModel true 2 0 [mailElmDated, mailElmNoDate]
        [crmElm]).1.map (fun r => r.mail_id)) = ["M-null"] ∧
      (prepMailRow mailElmNoDate).date = none ∧
      (prepMailRow mailElmDated).date = some ⟨2024, 1, 10⟩) := by
  decide

/-- C10.  run_dao.update_step: for any step other than done / failed the
status and finished_at columns are unchanged while step, pct and message
are set (and the id, user_id and started_at columns are untouched);
status is forced (and finished_at stamped) exactly for the steps done
and failed. -/
theorem update_step_frame (row : RunRow) (step : String) (pct : Int)
    (message : String) (now : Nat) :
    (step ≠ "done" → step ≠ "failed" →
      (updateStep row step pct message now).status = row.status ∧
      (updateStep row step pct message now).finished_at = row.finished_at ∧
      (updateStep row step pct message now).step = step ∧
      (updateStep row step pct message now).pct = pct ∧
      (updateStep row step pct message now).message = message ∧
      (updateStep row step pct message now).id = row.id ∧
      (updateStep row step pct message now).user_id = row.user_id ∧
      (updateStep row step pct message now).started_at = row.started_at) ∧
    ((updateStep row "done" pct message now).status = "done" ∧
      (updateStep row "done" pct message now).finished_at = some now) ∧
    ((updateStep row "failed" pct message now).status = "failed" ∧
      (updateStep row "failed" pct message now).finished_at = some now) := by
  refine ⟨fun h1 h2 => ?_, ?_, ?_⟩ <;> simp [updateStep, *]

/-- C10, witness: the frame part applied at a concrete mid-run step. -/
theorem update_step_frame_witness :
    (updateStep ⟨"r1", "u1", "matching", "load", 91, "hb", 5, none⟩
        "kpi" 96 "Computing KPIs" 42).status = "matching" ∧
    (updateStep ⟨"r1", "u1", "matching", "load", 91, "hb", 5, none⟩
        "kpi" 96 "Computing KPIs" 42).finished_at = none ∧
    (updateStep ⟨"r1", "u1", "matching", "load", 91, "hb", 5, none⟩
        "failed" 100 "boom" 42).status = "failed" := by
  have h := update_step_frame ⟨"r1", "u1", "matching", "load", 91, "hb", 5, none⟩
    "kpi" 96 "Computing KPIs" 42
  have hf := update_step_frame ⟨"r1", "u1", "matching", "load", 91, "hb", 5, none⟩
    "failed" 100 "boom" 42
  have h1 := h.1 (by decide) (by decide)
  exact ⟨h1.1, h1.2.1, hf.2.2.1⟩

/-- Helper: the two possible shapes of the candidate pull. -/
theorem candidatesForCrm_cases (ff : Bool) (mail : List MailP) (c : CrmP) :
    candidatesForCrm ff mail c = mailGroupZip mail c.blk c.zip5 ∨
    candidatesForCrm ff mail c = mailGroup mail c.blk := by
  unfold candidatesForCrm
  split_ifs with h1 h2
  · right; rfl
  · left; rfl
  · right; rfl


/-- C3, amended.  Candidate selection is indexed by the block key: every
candidate shares the CRM row's _blk; under FAST_FILTERS with a nonempty
CRM zip5 the (block, zip5) bucket is used first, falling back to the
whole block bucket (not to all mail) when it is empty; without
FAST_FILTERS or a zip the block bucket is used; and a CRM row whose
block bucket is empty is excluded with reason no_block_candidates. -/
theorem candidate_selection_amended (ff : Bool) (mail : List MailP) (c : CrmP) :
    (∀ m ∈ candidatesForCrm ff mail c, m.blk = c.blk) ∧
    (ff = true → c.zip5 ≠ "" → mailGroupZip mail c.blk c.zip5 ≠ [] →
      candidatesForCrm ff mail c = mailGroupZip mail c.blk c.zip5) ∧
    (ff = true → c.zip5 ≠ "" → mailGroupZip mail c.blk c.zip5 = [] →
      candidatesForCrm ff mail c = mailGroup mail c.blk) ∧
    ((ff = false ∨ c.zip5 = "") →
      candidatesForCrm ff mail c = mailGroup mail c.blk) ∧
    (∀ (ratio : String → String → Nat) (topk : Nat) (ms : Int),
      candidatesForCrm ff mail c = [] →
      processCrmRow ratio ff topk ms mail c =
        RowResult.excluded
          ⟨c.row.source_id, "no_block_candidates", c.blk, c.row.address1,
           c.row.zip⟩) := by
  refine ⟨?_, ?_, ?_, ?_, ?_⟩
  · intro m hm
    rcases candidatesForCrm_cases ff mail c with h | h <;> rw [h] at hm
    · exact eq_of_beq (Bool.and_eq_true _ _ ▸ (List.mem_filter.mp hm).2).1
    · exact eq_of_beq (List.mem_filter.mp hm).2
  · intro h1 h2 h3
    unfold candidatesForCrm
    rw [if_pos (by simp [h1, h2]), if_neg (by simpa [List.isEmpty_iff] using h3)]
  · intro h1 h2 h3
    unfold candidatesForCrm
    rw [if_pos (by simp [h1, h2]), if_pos (by simpa [List.isEmpty_iff] using h3)]
  · intro h
    unfold candidatesForCrm
    rcases h with h | h <;> simp [h]
  · intro ratio topk ms h
    simp [processCrmRow, h]

/-- C3, amended, witness: the characterization applied to the concrete
Oak Road job against the Austin mail list. -/
theorem candidate_selection_amended_witness :
    candidatesForCrm true [prepMailRow mailAustinJan] (prepCrmRow crmOakRd) =
      mailGroup [prepMailRow mailAustinJan] (prepCrmRow crmOakRd).blk ∧
    processCrmRow tokenSetRatioModel true 1 0 [prepMailRow mailAustinJan]
        (prepCrmRow crmOakRd) =
      RowResult.excluded
        ⟨(prepCrmRow crmOakRd).row.source_id, "no_block_candidates",
         (prepCrmRow crmOakRd).blk, (prepCrmRow crmOakRd).row.address1,
         (prepCrmRow crmOakRd).row.zip⟩ := by
  have h := candidate_selection_amended true [prepMailRow mailAustinJan]
    (prepCrmRow crmOakRd)
  refine ⟨h.2.2.1 rfl (by decide) (by decide), ?_⟩
  exact h.2.2.2.2 tokenSetRatioModel 1 0 (by decide)

/-- C6.  The date-window step of run_matching: with a parsed CRM date dt,
(a) the row proceeds to scoring with exactly the filtered candidate set;
(b) a mail candidate survives the filter iff it has no date or a date at
or before dt; (c) an empty window records the exclusion reason
no_date_window_candidates; and (d) every date of a persisted match row's
matched_mail_dates is at or before its parsed crm_job_date when that is
non-null (the persisted array is in fact always empty, so this clause of
the claim holds vacuously). -/
theorem date_window_spec :
    (∀ (ratio : String → String → Nat) (ff : Bool) (topk : Nat) (ms : Int)
        (mail : List MailP) (c : CrmP) (dt : Date),
      c.date = some dt →
      candidatesForCrm ff mail c ≠ [] →
      (candidatesForCrm ff mail c).filter (inWindow dt) ≠ [] →
      processCrmRow ratio ff topk ms mail c =
        scoreAndEmit ratio ff topk ms c
          ((candidatesForCrm ff mail c).filter (inWindow dt))) ∧
    (∀ (ff : Bool) (mail : List MailP) (c : CrmP) (dt : Date) (m : MailP),
      m ∈ (candidatesForCrm ff mail c).filter (inWindow dt) ↔
        m ∈ candidatesForCrm ff mail c ∧
          (m.date = none ∨ ∃ d, m.date = some d ∧ d ≤ dt)) ∧
    (∀ (ratio : String → String → Nat) (ff : Bool) (topk : Nat) (ms : Int)
        (mail : List MailP) (c : CrmP) (dt : Date),
      c.date = some dt →
      candidatesForCrm ff mail c ≠ [] →
      (candidatesForCrm ff mail c).filter (inWindow dt) = [] →
      processCrmRow ratio ff topk ms mail c =
        RowResult.excluded
          ⟨c.row.source_id, "no_date_window_candidates", c.blk,
           c.row.address1, c.row.zip⟩) ∧
    (∀ (run user : String) (out : OutRow) (d : Date),
      d ∈ (ensureDefaultsStored run user (transformRow out)).matched_mail_dates →
      ∀ jd,
        parseDateAny (ensureDefaultsStored run user (transformRow out)).crm_job_date =
          some jd →
        d ≤ jd) := by
  refine ⟨?_, ?_, ?_, ?_⟩
  · intro ratio ff topk ms mail c dt hdt hne hwne
    obtain ⟨x, xs, hx⟩ := List.exists_cons_of_ne_nil hne
    obtain ⟨y, ys, hy⟩ := List.exists_cons_of_ne_nil hwne
    rw [hx] at hy
    simp only [processCrmRow, hdt]
    rw [hx]
    simp [hy]
  · intro ff mail c dt m
    rw [List.mem_filter]
    constructor
    · rintro ⟨hmem, hw⟩
      refine ⟨hmem, ?_⟩
      unfold inWindow at hw
      cases hd : m.date with
      | none => exact Or.inl rfl
      | some d =>
        rw [hd] at hw
        exact Or.inr ⟨d, rfl, of_decide_eq_true hw⟩
    · rintro ⟨hmem, hw⟩
      refine ⟨hmem, ?_⟩
      unfold inWindow
      rcases hw with h | ⟨d, hd, hle⟩
      · rw [h]
      · rw [hd]
        exact decide_eq_true hle
  · intro ratio ff topk ms mail c dt hdt hne hw
    obtain ⟨x, xs, hx⟩ := List.exists_cons_of_ne_nil hne
    rw [hx] at hw
    simp only [processCrmRow, hdt]
    rw [hx]
    simp [hw]
  · intro run user out d hd jd _
    simp [ensureDefaultsStored] at hd

/-- C6, witness: the window of the Austin job keeps both January and
February mail, and membership matches the date condition concretely. -/
theorem date_window_spec_witness :
    processCrmRow tokenSetRatioModel true 1 0
        [prepMailRow mailAustinJan, prepMailRow mailAustinFeb]
        (prepCrmRow crmAustinJ1) =
      scoreAndEmit tokenSetRatioModel true 1 0 (prepCrmRow crmAustinJ1)
        ((candidatesForCrm true
            [prepMailRow mailAustinJan, prepMailRow mailAustinFeb]
            (prepCrmRow crmAustinJ1)).filter (inWindow ⟨2024, 3, 1⟩)) ∧
    (prepMailRow mailAustinJan ∈
        (candidatesForCrm true
            [prepMailRow mailAustinJan, prepMailRow mailAustinFeb]
            (prepCrmRow crmAustinJ1)).filter (inWindow ⟨2024, 3, 1⟩) ↔
      prepMailRow mailAustinJan ∈
          candidatesForCrm true
            [prepMailRow mailAustinJan, prepMailRow mailAustinFeb]
            (prepCrmRow crmAustinJ1) ∧
        ((prepMailRow mailAustinJan).date = none ∨
          ∃ d, (prepMailRow mailAustinJan).date = some d ∧ d ≤ ⟨2024, 3, 1⟩)) := by
  have h := date_window_spec
  refine ⟨?_, ?_⟩
  · exact h.1 tokenSetRatioModel true 1 0
      [prepMailRow mailAustinJan, prepMailRow mailAustinFeb]
      (prepCrmRow crmAustinJ1) ⟨2024, 3, 1⟩ (by decide) (by decide) (by decide)
  · exact h.2.1 true [prepMailRow mailAustinJan, prepMailRow mailAustinFeb]
      (prepCrmRow crmAustinJ1) ⟨2024, 3, 1⟩ (prepMailRow mailAustinJan)

/-- Helper: invariants of the extractOne fold (score bound, provenance). -/
theorem extractOne_go (ratio : String → String → Nat) (q : String) :
    ∀ (cand : List MailP) (acc : Option (MailP × Nat)) (m : MailP) (s : Nat),
      cand.foldl (extractOneStep ratio q) acc = some (m, s) →
      (acc = some (m, s) ∨ (m ∈ cand ∧ ratio q m.addrStr = s)) ∧
      (∀ p ∈ cand, ratio q p.addrStr ≤ s) ∧
      (∀ bm bs, acc = some (bm, bs) → bs ≤ s) := by
  intro cand
  induction cand with
  | nil =>
    intro acc m s h
    simp only [List.foldl_nil] at h
    exact ⟨Or.inl h, by simp, fun bm bs hbm => by rw [hbm] at h; cases h; exact Nat.le_refl _⟩
  | cons p l ih =>
    intro acc m s h
    rw [List.foldl_cons] at h
    have hstep := ih (extractOneStep ratio q acc p) m s h
    have hp_le : ratio q p.addrStr ≤ s ∧ (∀ bm bs, acc = some (bm, bs) → bs ≤ s) := by
      rcases hacc : acc with _ | ⟨bm, bs⟩
      · have : extractOneStep ratio q none p = some (p, ratio q p.addrStr) := rfl
        rw [hacc, this] at hstep
        exact ⟨hstep.2.2 p (ratio q p.addrStr) rfl, fun _ _ hx => by cases hx⟩
      · by_cases hgt : ratio q p.addrStr > bs
        · have : extractOneStep ratio q (some (bm, bs)) p =
              some (p, ratio q p.addrStr) := by
            unfold extractOneStep; simp [hgt]
          rw [hacc, this] at hstep
          have h1 := hstep.2.2 p (ratio q p.addrStr) rfl
          exact ⟨h1, fun bm2 bs2 hx => by
            cases hx
            exact Nat.le_trans (Nat.le_of_lt hgt) h1⟩
        · have : extractOneStep ratio q (some (bm, bs)) p = some (bm, bs) := by
            unfold extractOneStep; simp [hgt]
          rw [hacc, this] at hstep
          have h1 := hstep.2.2 bm bs rfl
          exact ⟨Nat.le_trans (Nat.le_of_not_lt hgt) h1, fun bm2 bs2 hx => by
            cases hx; exact h1⟩
    refine ⟨?_, ?_, hp_le.2⟩
    · rcases hstep.1 with h1 | h1
      · rcases hacc : acc with _ | ⟨bm, bs⟩
        · rw [hacc] at h1
          have : extractOneStep ratio q none p = some (p, ratio q p.addrStr) := rfl
          rw [this] at h1
          cases h1
          exact Or.inr ⟨List.mem_cons_self _ _, rfl⟩
        · rw [hacc] at h1
          by_cases hgt : ratio q p.addrStr > bs
          · have : extractOneStep ratio q (some (bm, bs)) p =
                some (p, ratio q p.addrStr) := by
              unfold extractOneStep; simp [hgt]
            rw [this] at h1
            cases h1
            exact Or.inr ⟨List.mem_cons_self _ _, rfl⟩
          · have : extractOneStep ratio q (some (bm, bs)) p = some (bm, bs) := by
              unfold extractOneStep; simp [hgt]
            rw [this] at h1
            exact Or.inl h1
      · exact Or.inr ⟨List.mem_cons_of_mem _ h1.1, h1.2⟩
    · intro p2 hp2
      rcases List.mem_cons.mp hp2 with h2 | h2
      · rw [h2]; exact hp_le.1
      · exact hstep.2.1 p2 h2

/-- Helper: bonus adjustment of a nonnegative base score stays
nonnegative. -/
theorem bonusAdjust_nonneg (b : Int) (hb : 0 ≤ b) (m : MailP) (c : CrmP) :
    0 ≤ bonusAdjust b m c := by
  unfold bonusAdjust
  dsimp only
  split_ifs <;> omega

/-- Helper: the top-K fold with all adjusted scores equal and all
candidates dated keeps the score and ends at a candidate whose date is a
lower bound for every candidate date (the incumbent is replaced exactly
on a strictly earlier date). -/
theorem selectTopK_go (c : CrmP) (s : Int) :
    ∀ (pairs : List (MailP × Nat)) (b : MailP) (db : Date),
      b.date = some db →
      (∀ p ∈ pairs, bonusAdjust ((p.2 : Nat) : Int) p.1 c = s) →
      (∀ p ∈ pairs, (p.1).date.isSome = true) →
      ∃ m dm, pairs.foldl (selectStep c) (some b, s) = (some m, s) ∧
        m.date = some dm ∧ dm ≤ db ∧
        (∀ p ∈ pairs, ∀ d2, (p.1).date = some d2 → dm ≤ d2) := by
  intro pairs
  induction pairs with
  | nil =>
    intro b db hb _ _
    refine ⟨b, db, rfl, hb, Int.le_refl _, ?_⟩
    intro p hp d2 hd2
    exact absurd hp (List.not_mem_nil p)
  | cons p l ih =>
    intro b db hb hadj hdated
    have hadjp : bonusAdjust ((p.2 : Nat) : Int) p.1 c = s :=
      hadj p (List.mem_cons_self _ _)
    obtain ⟨dp, hdp⟩ := Option.isSome_iff_exists.mp
      (hdated p (List.mem_cons_self _ _))
    have hstep : l.foldl (selectStep c) (selectStep c (some b, s) p) =
        (p :: l).foldl (selectStep c) (some b, s) := by rw [List.foldl_cons]
    by_cases hlt : dp < db
    · have hsel : selectStep c (some b, s) p = (some p.1, s) := by
        simp [selectStep, hadjp, hdp, hb, hlt]
      obtain ⟨m, dm, hfold, hm, hle, hall⟩ := ih p.1 dp hdp
        (fun q hq => hadj q (List.mem_cons_of_mem _ hq))
        (fun q hq => hdated q (List.mem_cons_of_mem _ hq))
      refine ⟨m, dm, ?_, hm, Int.le_trans hle (Int.le_of_lt hlt), ?_⟩
      · rw [← hstep, hsel]; exact hfold
      · intro q hq d2 hd2
        rcases List.mem_cons.mp hq with h2 | h2
        · rw [h2] at hd2; rw [hdp] at hd2; cases hd2; exact hle
        · exact hall q h2 d2 hd2
    · have hsel : selectStep c (some b, s) p = (some b, s) := by
        simp [selectStep, hadjp, hdp, hb, hlt]
      obtain ⟨m, dm, hfold, hm, hle, hall⟩ := ih b db hb
        (fun q hq => hadj q (List.mem_cons_of_mem _ hq))
        (fun q hq => hdated q (List.mem_cons_of_mem _ hq))
      refine ⟨m, dm, ?_, hm, hle, ?_⟩
      · rw [← hstep, hsel]; exact hfold
      · intro q hq d2 hd2
        rcases List.mem_cons.mp hq with h2 | h2
        · rw [h2] at hd2; rw [hdp] at hd2; cases hd2
          exact Int.le_trans hle (Int.not_lt.mp hlt)
        · exact hall q h2 d2 hd2

/-- C4, amended.  (i) In the default single-best path, extractOne
returns a candidate attaining the maximal base score (rapidfuzz keeps
the first such on ties), with bonuses applied only after selection — no
date tie-break exists there.  (ii) In the top-K path, among candidates
with equal bonus-adjusted scores and non-null dates, the selected winner
carries the earliest candidate date (an incoming candidate replaces the
incumbent exactly when its date, null read as date.min, strictly
precedes the incumbent's date, null read as date.max). -/
theorem tie_break_amended :
    (∀ (ratio : String → String → Nat) (q : String) (cand : List MailP)
        (m : MailP) (s : Nat),
      extractOne ratio q cand = some (m, s) →
      m ∈ cand ∧ ratio q m.addrStr = s ∧ ∀ p ∈ cand, ratio q p.addrStr ≤ s) ∧
    (∀ (c : CrmP) (pairs : List (MailP × Nat)) (p0 : MailP × Nat)
        (rest : List (MailP × Nat)) (s : Int),
      pairs = p0 :: rest →
      (∀ p ∈ pairs, bonusAdjust ((p.2 : Nat) : Int) p.1 c = s) →
      (∀ p ∈ pairs, (p.1).date.isSome = true) →
      ∃ m dm, selectTopK c pairs = (some m, s) ∧ m.date = some dm ∧
        (∀ p ∈ pairs, ∀ d2, (p.1).date = some d2 → dm ≤ d2)) := by
  constructor
  · intro ratio q cand m s h
    have hgo := extractOne_go ratio q cand none m s h
    rcases hgo.1 with h1 | h1
    · cases h1
    · exact ⟨h1.1, h1.2, hgo.2.1⟩
  · intro c pairs p0 rest s hpairs hadj hdated
    subst hpairs
    have hadj0 : bonusAdjust ((p0.2 : Nat) : Int) p0.1 c = s :=
      hadj p0 (List.mem_cons_self _ _)
    obtain ⟨d0, hd0⟩ := Option.isSome_iff_exists.mp
      (hdated p0 (List.mem_cons_self _ _))
    have hs_nonneg : 0 ≤ s := hadj0 ▸ bonusAdjust_nonneg _ (Int.natCast_nonneg _) _ _
    have hfirst : selectStep c (none, -1) p0 = (some p0.1, s) := by
      unfold selectStep
      simp only [hadj0]
      rw [if_pos (Or.inl (by omega))]
    obtain ⟨m, dm, hfold, hm, hle, hall⟩ := selectTopK_go c s rest p0.1 d0 hd0
      (fun q hq => hadj q (List.mem_cons_of_mem _ hq))
      (fun q hq => hdated q (List.mem_cons_of_mem _ hq))
    refine ⟨m, dm, ?_, hm, ?_⟩
    · unfold selectTopK
      rw [List.foldl_cons, hfirst]
      exact hfold
    · intro p hp d2 hd2
      rcases List.mem_cons.mp hp with h2 | h2
      · rw [h2] at hd2; rw [hd0] at hd2; cases hd2; exact hle
      · exact hall p h2 d2 hd2

/-- C4, amended, witness: the single-best characterization applied to
the two Elm candidates, and the top-K selection applied to the same pair
with equal adjusted scores. -/
theorem tie_break_amended_witness :
    (prepMailRow mailElmLate ∈
        [prepMailRow mailElmLate, prepMailRow mailElmEarly] ∧
      tokenSetRatioModel (prepCrmRow crmElm).addrStr
          (prepMailRow mailElmLate).addrStr = 100 ∧
      ∀ p ∈ [prepMailRow mailElmLate, prepMailRow mailElmEarly],
        tokenSetRatioModel (prepCrmRow crmElm).addrStr p.addrStr ≤ 100) ∧
    (selectTopK (prepCrmRow crmElm)
        [(prepMailRow mailElmLate, 100), (prepMailRow mailElmEarly, 100)]).2 =
      100 := by
  constructor
  · exact (tie_break_amended.1 tokenSetRatioModel (prepCrmRow crmElm).addrStr
      [prepMailRow mailElmLate, prepMailRow mailElmEarly]
      (prepMailRow mailElmLate) 100 (by decide))
  · obtain ⟨m, dm, hsel, -, -⟩ := tie_break_amended.2 (prepCrmRow crmElm)
      [(prepMailRow mailElmLate, 100), (prepMailRow mailElmEarly, 100)]
      (prepMailRow mailElmLate, 100) [(prepMailRow mailElmEarly, 100)] 100
      rfl (by decide) (by decide)
    rw [hsel]

/-! ### Key bookkeeping for the staging upserts (claims C7 and C8) -/

/-- The (user_id, mail_key) column pair of staging_mail, in row order. -/
def mailKeys (t : List StagedMail) : List (String × String) :=
  t.map (fun r => (r.user_id, r.mail_key))

/-- The (user_id, job_index) column pair of staging_crm, in row order. -/
def crmKeys (t : List StagedCrm) : List (String × String) :=
  t.map (fun r => (r.user_id, r.job_index))

/-- The conflict test of the mail upsert as a key lookup. -/
def mailKeyIn (t : List StagedMail) (u mk : String) : Bool :=
  t.any (fun r => r.user_id == u && r.mail_key == mk)

/-- The conflict test of the CRM upsert as a key lookup. -/
def crmKeyIn (t : List StagedCrm) (u ji : String) : Bool :=
  t.any (fun r => r.user_id == u && r.job_index == ji)

theorem mailKeyIn_eq_keys (t : List StagedMail) (u mk : String) :
    mailKeyIn t u mk = (mailKeys t).any (fun k => k.1 == u && k.2 == mk) := by
  unfold mailKeyIn mailKeys
  induction t with
  | nil => rfl
  | cons r rest ih => simp [ih]

theorem crmKeyIn_eq_keys (t : List StagedCrm) (u ji : String) :
    crmKeyIn t u ji = (crmKeys t).any (fun k => k.1 == u && k.2 == ji) := by
  unfold crmKeyIn crmKeys
  induction t with
  | nil => rfl
  | cons r rest ih => simp [ih]

/-- The ON CONFLICT upsert never changes the key columns: the table's
key list is unchanged on a conflict and extended by the new key
otherwise. -/
theorem mailKeys_upsert (t : List StagedMail) (new : StagedMail) :
    mailKeys (upsertStagedMail t new) =
      if mailKeyIn t new.user_id new.mail_key then mailKeys t
      else mailKeys t ++ [(new.user_id, new.mail_key)] := by
  unfold upsertStagedMail mailKeyIn
  split_ifs with h
  · unfold mailKeys
    rw [List.map_map]
    apply List.map_congr_left
    intro r _
    dsimp only [Function.comp]
    split_ifs <;> rfl
  · unfold mailKeys
    rw [List.map_append]
    rfl

theorem crmKeys_upsert (t : List StagedCrm) (new : StagedCrm) :
    crmKeys (upsertStagedCrm t new) =
      if crmKeyIn t new.user_id new.job_index then crmKeys t
      else crmKeys t ++ [(new.user_id, new.job_index)] := by
  unfold upsertStagedCrm crmKeyIn
  split_ifs with h
  · unfold crmKeys
    rw [List.map_map]
    apply List.map_congr_left
    intro r _
    dsimp only [Function.comp]
    split_ifs <;> rfl
  · unfold crmKeys
    rw [List.map_append]
    rfl

/-- A whole batch of upserts whose keys are already present leaves the
key list (hence the row count) unchanged. -/
theorem mailKeys_foldl_present (payload : List StagedMail) :
    ∀ (t : List StagedMail),
      (∀ p ∈ payload, mailKeyIn t p.user_id p.mail_key = true) →
      mailKeys (payload.foldl upsertStagedMail t) = mailKeys t := by
  induction payload with
  | nil => intro t _; rfl
  | cons p rest ih =>
    intro t hall
    rw [List.foldl_cons]
    have hp := hall p (List.mem_cons_self _ _)
    have hkeys : mailKeys (upsertStagedMail t p) = mailKeys t := by
      rw [mailKeys_upsert, if_pos hp]
    rw [ih (upsertStagedMail t p) ?_, hkeys]
    intro q hq
    rw [mailKeyIn_eq_keys, hkeys, ← mailKeyIn_eq_keys]
    exact hall q (List.mem_cons_of_mem _ hq)

theorem crmKeys_foldl_present (payload : List StagedCrm) :
    ∀ (t : List StagedCrm),
      (∀ p ∈ payload, crmKeyIn t p.user_id p.job_index = true) →
      crmKeys (payload.foldl upsertStagedCrm t) = crmKeys t := by
  induction payload with
  | nil => intro t _; rfl
  | cons p rest ih =>
    intro t hall
    rw [List.foldl_cons]
    have hp := hall p (List.mem_cons_self _ _)
    have hkeys : crmKeys (upsertStagedCrm t p) = crmKeys t := by
      rw [crmKeys_upsert, if_pos hp]
    rw [ih (upsertStagedCrm t p) ?_, hkeys]
    intro q hq
    rw [crmKeyIn_eq_keys, hkeys, ← crmKeyIn_eq_keys]
    exact hall q (List.mem_cons_of_mem _ hq)

/-- Presence of a key survives an upsert. -/
theorem mailKeyIn_upsert_mono (t : List StagedMail) (new : StagedMail)
    (u mk : String) (h : mailKeyIn t u mk = true) :
    mailKeyIn (upsertStagedMail t new) u mk = true := by
  rw [mailKeyIn_eq_keys, mailKeys_upsert]
  split_ifs
  · rw [← mailKeyIn_eq_keys]; exact h
  · rw [List.any_append]
    rw [mailKeyIn_eq_keys] at h
    rw [h]
    rfl

theorem crmKeyIn_upsert_mono (t : List StagedCrm) (new : StagedCrm)
    (u ji : String) (h : crmKeyIn t u ji = true) :
    crmKeyIn (upsertStagedCrm t new) u ji = true := by
  rw [crmKeyIn_eq_keys, crmKeys_upsert]
  split_ifs
  · rw [← crmKeyIn_eq_keys]; exact h
  · rw [List.any_append]
    rw [crmKeyIn_eq_keys] at h
    rw [h]
    rfl

/-- An upsert establishes presence of its own key. -/
theorem mailKeyIn_upsert_self (t : List StagedMail) (new : StagedMail) :
    mailKeyIn (upsertStagedMail t new) new.user_id new.mail_key = true := by
  rw [mailKeyIn_eq_keys, mailKeys_upsert]
  split_ifs with h
  · rw [← mailKeyIn_eq_keys]; exact h
  · rw [List.any_append]
    simp

theorem crmKeyIn_upsert_self (t : List StagedCrm) (new : StagedCrm) :
    crmKeyIn (upsertStagedCrm t new) new.user_id new.job_index = true := by
  rw [crmKeyIn_eq_keys, crmKeys_upsert]
  split_ifs with h
  · rw [← crmKeyIn_eq_keys]; exact h
  · rw [List.any_append]
    simp

/-- Presence of a key survives a whole batch of upserts. -/
theorem mailKeyIn_foldl_mono (payload : List StagedMail) :
    ∀ (t : List StagedMail) (u mk : String), mailKeyIn t u mk = true →
      mailKeyIn (payload.foldl upsertStagedMail t) u mk = true := by
  induction payload with
  | nil => intro t u mk h; exact h
  | cons q rest ih =>
    intro t u mk h
    rw [List.foldl_cons]
    exact ih _ u mk (mailKeyIn_upsert_mono t q u mk h)

theorem crmKeyIn_foldl_mono (payload : List StagedCrm) :
    ∀ (t : List StagedCrm) (u ji : String), crmKeyIn t u ji = true →
      crmKeyIn (payload.foldl upsertStagedCrm t) u ji = true := by
  induction payload with
  | nil => intro t u ji h; exact h
  | cons q rest ih =>
    intro t u ji h
    rw [List.foldl_cons]
    exact ih _ u ji (crmKeyIn_upsert_mono t q u ji h)

/-- After a batch of upserts, every key of the batch is present. -/
theorem mailKeyIn_foldl (payload : List StagedMail) :
    ∀ (t : List StagedMail) (p : StagedMail), p ∈ payload →
      mailKeyIn (payload.foldl upsertStagedMail t) p.user_id p.mail_key = true := by
  induction payload with
  | nil => intro t p hp; exact absurd hp (List.not_mem_nil p)
  | cons q rest ih =>
    intro t p hp
    rw [List.foldl_cons]
    rcases List.mem_cons.mp hp with h | h
    · subst h
      exact mailKeyIn_foldl_mono rest _ _ _ (mailKeyIn_upsert_self t p)
    · exact ih (upsertStagedMail t q) p h

theorem crmKeyIn_foldl (payload : List StagedCrm) :
    ∀ (t : List StagedCrm) (p : StagedCrm), p ∈ payload →
      crmKeyIn (payload.foldl upsertStagedCrm t) p.user_id p.job_index = true := by
  induction payload with
  | nil => intro t p hp; exact absurd hp (List.not_mem_nil p)
  | cons q rest ih =>
    intro t p hp
    rw [List.foldl_cons]
    rcases List.mem_cons.mp hp with h | h
    · subst h
      exact crmKeyIn_foldl_mono rest _ _ _ (crmKeyIn_upsert_self t p)
    · exact ih (upsertStagedCrm t q) p h

/-- The dedup pass only keeps rows of its input. -/
theorem dedupMailRows_subset :
    ∀ (rows : List MailDbRow) (seen : List String) (l : List MailDbRow),
      dedupMailRows rows seen = Except.ok l → ∀ r ∈ l, r ∈ rows := by
  intro rows
  induction rows with
  | nil =>
    intro seen l h r hr
    unfold dedupMailRows at h
    cases h
    exact absurd hr (List.not_mem_nil r)
  | cons q rest ih =>
    intro seen l h r hr
    unfold dedupMailRows at h
    split_ifs at h with h1 h2
    · exact List.mem_cons_of_mem _ (ih seen l h r hr)
    · cases hrec : dedupMailRows rest (pyTrim (q.mail_key.getD "") :: seen) with
      | error e => rw [hrec] at h; cases h
      | ok l2 =>
        rw [hrec] at h
        cases h
        rcases List.mem_cons.mp hr with h3 | h3
        · rw [h3]; exact List.mem_cons_self _ _
        · exact List.mem_cons_of_mem _ (ih _ l2 hrec r h3)

theorem dedupCrmRows_subset :
    ∀ (rows : List CrmDbRow) (seen : List String) (l : List CrmDbRow),
      dedupCrmRows rows seen = Except.ok l → ∀ r ∈ l, r ∈ rows := by
  intro rows
  induction rows with
  | nil =>
    intro seen l h r hr
    unfold dedupCrmRows at h
    cases h
    exact absurd hr (List.not_mem_nil r)
  | cons q rest ih =>
    intro seen l h r hr
    unfold dedupCrmRows at h
    split_ifs at h with h1 h2
    · exact List.mem_cons_of_mem _ (ih seen l h r hr)
    · cases hrec : dedupCrmRows rest (pyTrim (q.job_index.getD "") :: seen) with
      | error e => rw [hrec] at h; cases h
      | ok l2 =>
        rw [hrec] at h
        cases h
        rcases List.mem_cons.mp hr with h3 | h3
        · rw [h3]; exact List.mem_cons_self _ _
        · exact List.mem_cons_of_mem _ (ih _ l2 hrec r h3)

/-- Shape of a successful insert_normalized_mail call. -/
theorem insertNormalizedMail_ok (run user : String) (rows : List MailDbRow)
    (t t1 : List StagedMail) (n : Nat)
    (h : insertNormalizedMail run user rows t = Except.ok (t1, n)) :
    (rows = [] ∧ t1 = t) ∨
    ∃ dedup, dedupMailRows rows [] = Except.ok dedup ∧
      t1 = (dedup.map (mailPayload run user)).foldl upsertStagedMail t := by
  unfold insertNormalizedMail at h
  split_ifs at h with h1
  · cases h
    exact Or.inl ⟨List.isEmpty_iff.mp h1, rfl⟩
  · cases hrec : dedupMailRows rows [] with
    | error e => rw [hrec] at h; cases h
    | ok dedup =>
      rw [hrec] at h
      cases h
      exact Or.inr ⟨dedup, rfl, rfl⟩

theorem insertNormalizedCrm_ok (run user : String) (rows : List CrmDbRow)
    (t t1 : List StagedCrm) (n : Nat)
    (h : insertNormalizedCrm run user rows t = Except.ok (t1, n)) :
    (rows = [] ∧ t1 = t) ∨
    ∃ dedup, dedupCrmRows rows [] = Except.ok dedup ∧
      t1 = (dedup.map (crmPayload run user)).foldl upsertStagedCrm t := by
  unfold insertNormalizedCrm at h
  split_ifs at h with h1
  · cases h
    exact Or.inl ⟨List.isEmpty_iff.mp h1, rfl⟩
  · cases hrec : dedupCrmRows rows [] with
    | error e => rw [hrec] at h; cases h
    | ok dedup =>
      rw [hrec] at h
      cases h
      exact Or.inr ⟨dedup, rfl, rfl⟩

/-- The dedup pass guarantees every kept row has a nonblank trimmed
key. -/
theorem dedupMailRows_keys :
    ∀ (rows : List MailDbRow) (seen : List String) (l : List MailDbRow),
      dedupMailRows rows seen = Except.ok l →
      ∀ r ∈ l, pyTrim (r.mail_key.getD "") ≠ "" := by
  intro rows
  induction rows with
  | nil =>
    intro seen l h r hr
    unfold dedupMailRows at h
    cases h
    exact absurd hr (List.not_mem_nil r)
  | cons q rest ih =>
    intro seen l h r hr
    unfold dedupMailRows at h
    split_ifs at h with h1 h2
    · exact ih seen l h r hr
    · cases hrec : dedupMailRows rest (pyTrim (q.mail_key.getD "") :: seen) with
      | error e => rw [hrec] at h; cases h
      | ok l2 =>
        rw [hrec] at h
        cases h
        rcases List.mem_cons.mp hr with h3 | h3
        · rw [h3]; exact h1
        · exact ih _ l2 hrec r h3

theorem dedupCrmRows_keys :
    ∀ (rows : List CrmDbRow) (seen : List String) (l : List CrmDbRow),
      dedupCrmRows rows seen = Except.ok l →
      ∀ r ∈ l, pyTrim (r.job_index.getD "") ≠ "" := by
  intro rows
  induction rows with
  | nil =>
    intro seen l h r hr
    unfold dedupCrmRows at h
    cases h
    exact absurd hr (List.not_mem_nil r)
  | cons q rest ih =>
    intro seen l h r hr
    unfold dedupCrmRows at h
    split_ifs at h with h1 h2
    · exact ih seen l h r hr
    · cases hrec : dedupCrmRows rest (pyTrim (q.job_index.getD "") :: seen) with
      | error e => rw [hrec] at h; cases h
      | ok l2 =>
        rw [hrec] at h
        cases h
        rcases List.mem_cons.mp hr with h3 | h3
        · rw [h3]; exact h1
        · exact ih _ l2 hrec r h3

/-- Rows of an upsert result take their key columns from the old table
or from the inserted row. -/
theorem mem_upsertStagedMail (t : List StagedMail) (new r : StagedMail)
    (h : r ∈ upsertStagedMail t new) :
    (∃ s ∈ t, r.mail_key = s.mail_key) ∨ r = new := by
  unfold upsertStagedMail at h
  split_ifs at h with hc
  · obtain ⟨s, hs, hr⟩ := List.mem_map.mp h
    refine Or.inl ⟨s, hs, ?_⟩
    rw [← hr]
    split_ifs <;> rfl
  · rcases List.mem_append.mp h with h1 | h1
    · exact Or.inl ⟨r, h1, rfl⟩
    · exact Or.inr (List.mem_singleton.mp h1)

theorem mem_upsertStagedCrm (t : List StagedCrm) (new r : StagedCrm)
    (h : r ∈ upsertStagedCrm t new) :
    (∃ s ∈ t, r.job_index = s.job_index) ∨ r = new := by
  unfold upsertStagedCrm at h
  split_ifs at h with hc
  · obtain ⟨s, hs, hr⟩ := List.mem_map.mp h
    refine Or.inl ⟨s, hs, ?_⟩
    rw [← hr]
    split_ifs <;> rfl
  · rcases List.mem_append.mp h with h1 | h1
    · exact Or.inl ⟨r, h1, rfl⟩
    · exact Or.inr (List.mem_singleton.mp h1)

/-- A property of the mail_key column is preserved by a whole batch of
upserts when it holds for the table and for the batch. -/
theorem foldl_upsertStagedMail_key_pred (P : String → Prop) :
    ∀ (payload : List StagedMail) (t : List StagedMail),
      (∀ s ∈ t, P s.mail_key) → (∀ p ∈ payload, P p.mail_key) →
      ∀ r ∈ payload.foldl upsertStagedMail t, P r.mail_key := by
  intro payload
  induction payload with
  | nil => intro t ht _ r hr; exact ht r hr
  | cons p rest ih =>
    intro t ht hp r hr
    rw [List.foldl_cons] at hr
    refine ih (upsertStagedMail t p) ?_ ?_ r hr
    · intro s hs
      rcases mem_upsertStagedMail t p s hs with ⟨s2, hs2, he⟩ | he
      · rw [he]; exact ht s2 hs2
      · rw [he]; exact hp p (List.mem_cons_self _ _)
    · intro q hq
      exact hp q (List.mem_cons_of_mem _ hq)

theorem foldl_upsertStagedCrm_key_pred (P : String → Prop) :
    ∀ (payload : List StagedCrm) (t : List StagedCrm),
      (∀ s ∈ t, P s.job_index) → (∀ p ∈ payload, P p.job_index) →
      ∀ r ∈ payload.foldl upsertStagedCrm t, P r.job_index := by
  intro payload
  induction payload with
  | nil => intro t ht _ r hr; exact ht r hr
  | cons p rest ih =>
    intro t ht hp r hr
    rw [List.foldl_cons] at hr
    refine ih (upsertStagedCrm t p) ?_ ?_ r hr
    · intro s hs
      rcases mem_upsertStagedCrm t p s hs with ⟨s2, hs2, he⟩ | he
      · rw [he]; exact ht s2 hs2
      · rw [he]; exact hp p (List.mem_cons_self _ _)
    · intro q hq
      exact hp q (List.mem_cons_of_mem _ hq)

theorem mailKeys_length (t : List StagedMail) : (mailKeys t).length = t.length :=
  List.length_map _ _

theorem crmKeys_length (t : List StagedCrm) : (crmKeys t).length = t.length :=
  List.length_map _ _

/-- C7.  The staging upserts are idempotent: (i)/(ii) inserting mail /
CRM batches whose (user_id, key) pairs already exist leaves the key
columns, and hence the row count, unchanged (values are refreshed in
place); (iii)/(iv) ingesting the same batch twice leaves the row count
after the second pass equal to the count after the first. -/
theorem staging_upsert_idempotent :
    (∀ (run user : String) (rows : List MailDbRow) (t t1 : List StagedMail)
        (n : Nat),
      insertNormalizedMail run user rows t = Except.ok (t1, n) →
      (∀ r ∈ rows, mailKeyIn t user (pyTrim (r.mail_key.getD "")) = true) →
      mailKeys t1 = mailKeys t ∧ t1.length = t.length) ∧
    (∀ (run user : String) (rows : List CrmDbRow) (t t1 : List StagedCrm)
        (n : Nat),
      insertNormalizedCrm run user rows t = Except.ok (t1, n) →
      (∀ r ∈ rows, crmKeyIn t user (pyTrim (r.job_index.getD "")) = true) →
      crmKeys t1 = crmKeys t ∧ t1.length = t.length) ∧
    (∀ (run run2 user : String) (rows : List MailDbRow)
        (t t1 t2 : List StagedMail) (n n2 : Nat),
      insertNormalizedMail run user rows t = Except.ok (t1, n) →
      insertNormalizedMail run2 user rows t1 = Except.ok (t2, n2) →
      t2.length = t1.length) ∧
    (∀ (run run2 user : String) (rows : List CrmDbRow)
        (t t1 t2 : List StagedCrm) (n n2 : Nat),
      insertNormalizedCrm run user rows t = Except.ok (t1, n) →
      insertNormalizedCrm run2 user rows t1 = Except.ok (t2, n2) →
      t2.length = t1.length) := by
  refine ⟨?_, ?_, ?_, ?_⟩
  · intro run user rows t t1 n h hall
    rcases insertNormalizedMail_ok run user rows t t1 n h with ⟨-, ht⟩ | ⟨dedup, hd, ht⟩
    · subst ht; exact ⟨rfl, rfl⟩
    · subst ht
      have hpres : ∀ p ∈ dedup.map (mailPayload run user),
          mailKeyIn t p.user_id p.mail_key = true := by
        intro p hp
        obtain ⟨dr, hdr, hpe⟩ := List.mem_map.mp hp
        have hin : dr ∈ rows := dedupMailRows_subset rows [] dedup hd dr hdr
        rw [← hpe]
        exact hall dr hin
      have hkeys := mailKeys_foldl_present (dedup.map (mailPayload run user)) t hpres
      refine ⟨hkeys, ?_⟩
      rw [← mailKeys_length ((dedup.map (mailPayload run user)).foldl upsertStagedMail t),
        hkeys, mailKeys_length]
  · intro run user rows t t1 n h hall
    rcases insertNormalizedCrm_ok run user rows t t1 n h with ⟨-, ht⟩ | ⟨dedup, hd, ht⟩
    · subst ht; exact ⟨rfl, rfl⟩
    · subst ht
      have hpres : ∀ p ∈ dedup.map (crmPayload run user),
          crmKeyIn t p.user_id p.job_index = true := by
        intro p hp
        obtain ⟨dr, hdr, hpe⟩ := List.mem_map.mp hp
        have hin : dr ∈ rows := dedupCrmRows_subset rows [] dedup hd dr hdr
        rw [← hpe]
        exact hall dr hin
      have hkeys := crmKeys_foldl_present (dedup.map (crmPayload run user)) t hpres
      refine ⟨hkeys, ?_⟩
      rw [← crmKeys_length ((dedup.map (crmPayload run user)).foldl upsertStagedCrm t),
        hkeys, crmKeys_length]
  · intro run run2 user rows t t1 t2 n n2 h1 h2
    rcases insertNormalizedMail_ok run user rows t t1 n h1 with ⟨hrows, ht1⟩ | ⟨dedup, hd, ht1⟩
    · subst hrows
      rcases insertNormalizedMail_ok run2 user [] t1 t2 n2 h2 with ⟨-, ht2⟩ | ⟨dedup2, hd2, ht2⟩
      · subst ht2; rfl
      · unfold dedupMailRows at hd2
        cases hd2
        subst ht2
        rfl
    · rcases insertNormalizedMail_ok run2 user rows t1 t2 n2 h2 with ⟨hrows2, ht2⟩ | ⟨dedup2, hd2, ht2⟩
      · subst ht2; rfl
      · have hdd : dedup = dedup2 := by
          have := hd.symm.trans hd2
          exact (Except.ok.injEq _ _).mp this
        subst hdd
        subst ht1
        subst ht2
        have hpres : ∀ p ∈ dedup.map (mailPayload run2 user),
            mailKeyIn ((dedup.map (mailPayload run user)).foldl upsertStagedMail t)
              p.user_id p.mail_key = true := by
          intro p hp
          obtain ⟨dr, hdr, hpe⟩ := List.mem_map.mp hp
          have hq : mailPayload run user dr ∈ dedup.map (mailPayload run user) :=
            List.mem_map_of_mem _ hdr
          have := mailKeyIn_foldl (dedup.map (mailPayload run user)) t
            (mailPayload run user dr) hq
          rw [← hpe]
          exact this
        have hkeys := mailKeys_foldl_present (dedup.map (mailPayload run2 user)) _ hpres
        rw [← mailKeys_length
          ((dedup.map (mailPayload run2 user)).foldl upsertStagedMail
            ((dedup.map (mailPayload run user)).foldl upsertStagedMail t)),
          hkeys, mailKeys_length]
  · intro run run2 user rows t t1 t2 n n2 h1 h2
    rcases insertNormalizedCrm_ok run user rows t t1 n h1 with ⟨hrows, ht1⟩ | ⟨dedup, hd, ht1⟩
    · subst hrows
      rcases insertNormalizedCrm_ok run2 user [] t1 t2 n2 h2 with ⟨-, ht2⟩ | ⟨dedup2, hd2, ht2⟩
      · subst ht2; rfl
      · unfold dedupCrmRows at hd2
        cases hd2
        subst ht2
        rfl
    · rcases insertNormalizedCrm_ok run2 user rows t1 t2 n2 h2 with ⟨hrows2, ht2⟩ | ⟨dedup2, hd2, ht2⟩
      · subst ht2; rfl
      · have hdd : dedup = dedup2 := by
          have := hd.symm.trans hd2
          exact (Except.ok.injEq _ _).mp this
        subst hdd
        subst ht1
        subst ht2
        have hpres : ∀ p ∈ dedup.map (crmPayload run2 user),
            crmKeyIn ((dedup.map (crmPayload run user)).foldl upsertStagedCrm t)
              p.user_id p.job_index = true := by
          intro p hp
          obtain ⟨dr, hdr, hpe⟩ := List.mem_map.mp hp
          have hq : crmPayload run user dr ∈ dedup.map (crmPayload run user) :=
            List.mem_map_of_mem _ hdr
          have := crmKeyIn_foldl (dedup.map (crmPayload run user)) t
            (crmPayload run user dr) hq
          rw [← hpe]
          exact this
        have hkeys := crmKeys_foldl_present (dedup.map (crmPayload run2 user)) _ hpres
        rw [← crmKeys_length
          ((dedup.map (crmPayload run2 user)).foldl upsertStagedCrm
            ((dedup.map (crmPayload run user)).foldl upsertStagedCrm t)),
          hkeys, crmKeys_length]

/-- A concrete mail row already staged, for the C7 witness. -/
def stagedM1 : StagedMail :=
  ⟨"r0", "u1", "M1", some "M1", "123 main st", none, "Austin", "TX", "78701",
   "123 main street austin tx 78701", some ⟨2024, 1, 10⟩⟩

/-- A concrete incoming mail row with the same (user, mail_key), for the
C7 witness. -/
def incomingM1 : MailDbRow :=
  ⟨some "M1", some "M1", some "123 MAIN ST", none, some "Austin", some "TX",
   some "78701", some "123 main street austin tx 78701", some ⟨2024, 1, 10⟩⟩

/-- C7, witness: re-inserting a staged mail row under its existing
(user_id, mail_key) keeps the one-row table at one row, twice over. -/
theorem staging_upsert_idempotent_witness :
    (insertNormalizedMail "r1" "u1" [incomingM1] [stagedM1] =
      Except.ok ([⟨"r1", "u1", "M1", some "M1", "123 MAIN ST", none, "Austin",
        "TX", "78701", "123 main street austin tx 78701",
        some ⟨2024, 1, 10⟩⟩], 1)) ∧
    ([(⟨"r1", "u1", "M1", some "M1", "123 MAIN ST", none, "Austin", "TX",
        "78701", "123 main street austin tx 78701", some ⟨2024, 1, 10⟩⟩ :
        StagedMail)].length = [stagedM1].length) := by
  constructor
  · decide
  · exact (staging_upsert_idempotent.1 "r1" "u1" [incomingM1] [stagedM1]
      [⟨"r1", "u1", "M1", some "M1", "123 MAIN ST", none, "Austin", "TX",
        "78701", "123 main street austin tx 78701", some ⟨2024, 1, 10⟩⟩] 1
      (by decide) (by decide)).2

/-- A canonical mail input row with no authoritative id and no sent
date: no mail_key could be synthesized for it. -/
def mailRowNoKey : MailNormIn :=
  ⟨none, none, some "5 Elm St", none, some "Boston", some "MA", some "02139", none⟩

/-- C8, counterexample.  The mail input row lacking both an id and the
AND-inputs (its sent_date is missing) is NOT dropped before insert: the
mail branch keeps it in rows_for_db (with no mail_key attached — none is
ever synthesized), falsifying the drop clause for the mail source; the
missing synthesis is confirmed by build_mail_key returning None on its
data. -/
theorem key_synthesis_counterexample :
    (mailBranchRowsForDb [mailRowNoKey]).length = 1 ∧
    (mailBranchRow mailRowNoKey).mail_key = none ∧
    buildMailKey (fun _ => "") none
      (buildFullAddress mailRowNoKey.address1 mailRowNoKey.address2
        mailRowNoKey.city mailRowNoKey.state mailRowNoKey.zip) none = none := by
  decide

/-- C8, amended.  (i)/(ii) Every row stored by the staging inserts
carries a nonempty mail_key / job_index (a blank key raises ValueError
before anything is written); (iii) the CRM branch drops exactly the rows
for which no job_index can be synthesized, so every CRM row reaching the
insert has a nonempty key; (iv) the mail branch, by contrast, drops
nothing (and attaches no mail_key), so a mail row without a synthesizable
key reaches insert_normalized_mail, which then rejects the whole batch
rather than skipping the row. -/
theorem key_synthesis_amended :
    (∀ (run user : String) (rows : List MailDbRow) (t t1 : List StagedMail)
        (n : Nat),
      insertNormalizedMail run user rows t = Except.ok (t1, n) →
      (∀ s ∈ t, s.mail_key ≠ "") → ∀ r ∈ t1, r.mail_key ≠ "") ∧
    (∀ (run user : String) (rows : List CrmDbRow) (t t1 : List StagedCrm)
        (n : Nat),
      insertNormalizedCrm run user rows t = Except.ok (t1, n) →
      (∀ s ∈ t, s.job_index ≠ "") → ∀ r ∈ t1, r.job_index ≠ "") ∧
    (∀ (hash16 : String → String) (rows : List CrmNormIn)
        (db : CrmDbRow), db ∈ crmBranchRowsForDb hash16 rows →
      ∃ j, db.job_index = some j ∧ j ≠ "") ∧
    (∀ rows : List MailNormIn, (mailBranchRowsForDb rows).length = rows.length) := by
  refine ⟨?_, ?_, ?_, ?_⟩
  · intro run user rows t t1 n h ht
    rcases insertNormalizedMail_ok run user rows t t1 n h with ⟨-, he⟩ | ⟨dedup, hd, he⟩
    · subst he; exact ht
    · subst he
      refine foldl_upsertStagedMail_key_pred (fun k => k ≠ "") _ t ht ?_
      intro p hp
      obtain ⟨dr, hdr, hpe⟩ := List.mem_map.mp hp
      rw [← hpe]
      exact dedupMailRows_keys rows [] dedup hd dr hdr
  · intro run user rows t t1 n h ht
    rcases insertNormalizedCrm_ok run user rows t t1 n h with ⟨-, he⟩ | ⟨dedup, hd, he⟩
    · subst he; exact ht
    · subst he
      refine foldl_upsertStagedCrm_key_pred (fun k => k ≠ "") _ t ht ?_
      intro p hp
      obtain ⟨dr, hdr, hpe⟩ := List.mem_map.mp hp
      rw [← hpe]
      exact dedupCrmRows_keys rows [] dedup hd dr hdr
  · intro hash16 rows db hdb
    unfold crmBranchRowsForDb at hdb
    obtain ⟨r, hr, hf⟩ := List.mem_filterMap.mp hdb
    by_cases hj : (buildJobIndex hash16 (pyOr r.source_id r.id)
        (buildFullAddress r.address1 r.address2 r.city r.state r.zip)
        (toDateOrNone r.job_date)).getD "" = ""
    · rw [if_pos hj] at hf
      cases hf
    · rw [if_neg hj] at hf
      cases hf
      cases hji : buildJobIndex hash16 (pyOr r.source_id r.id)
          (buildFullAddress r.address1 r.address2 r.city r.state r.zip)
          (toDateOrNone r.job_date) with
      | none =>
        rw [hji] at hj
        exact absurd rfl hj
      | some j =>
        rw [hji] at hj
        exact ⟨j, rfl, by simpa using hj⟩
  · intro rows
    exact List.length_map _ _

/-- A canonical CRM input row with an authoritative id, for the C8
witness. -/
def crmRowWithId : CrmNormIn :=
  ⟨some "J7", none, some "9 Oak Rd", none, some "Austin", some "TX",
   some "78701", some "03-01-2024", some "50"⟩

/-- C8, amended, witness: the invariants applied at concrete rows. -/
theorem key_synthesis_amended_witness :
    ((mailPayload "r1" "u1" incomingM1).mail_key ≠ "") ∧
    ((crmBranchRowsForDb (fun _ => "beef") [crmRowWithId]).headD
        ⟨none, none, none, none, none, none, none, none, none, none⟩).job_index ≠
      some "" ∧
    (mailBranchRowsForDb [mailRowNoKey]).length = [mailRowNoKey].length := by
  refine ⟨?_, ?_, ?_⟩
  · exact key_synthesis_amended.1 "r1" "u1" [incomingM1] [] [mailPayload "r1" "u1" incomingM1]
      1 (by decide) (by decide) (mailPayload "r1" "u1" incomingM1) (by decide)
  · obtain ⟨j, hj, hne⟩ := key_synthesis_amended.2.2.1 (fun _ => "beef")
      [crmRowWithId]
      ((crmBranchRowsForDb (fun _ => "beef") [crmRowWithId]).headD
        ⟨none, none, none, none, none, none, none, none, none, none⟩)
      (by decide)
    rw [hj]
    intro hc
    exact hne ((Option.some.injEq _ _).mp hc)
  · exact key_synthesis_amended.2.2.2 [mailRowNoKey]

/-- C5, amended, witness: the median identity at the two-mail fixture,
and the head-of-sort lower bound at a concrete date list. -/
theorem median_days_amended_witness :
    (buildPayloadKpis tokenSetRatioModel true 1 0 [mailAustinJan, mailAustinFeb]
        [crmAustinJ1]).median_days_to_convert =
      medianDaysAmendedSpec ((runMatching tokenSetRatioModel true 1 0
        [mailAustinJan, mailAustinFeb] [crmAustinJ1]).1) ∧
    (⟨2024, 1, 10⟩ : Date) ∈ [(⟨2024, 2, 1⟩ : Date), ⟨2024, 1, 10⟩] := by
  have h := median_days_amended tokenSetRatioModel true 1 0
    [mailAustinJan, mailAustinFeb] [crmAustinJ1]
  refine ⟨h.1, ?_⟩
  exact (h.2 [⟨2024, 2, 1⟩, ⟨2024, 1, 10⟩] ⟨2024, 1, 10⟩ (by decide)).1

end MailTrace
